import Mathlib

/-
  Verification development for the PipeWeave orchestrator core.

  The TypeScript source is shallowly embedded as pure Lean functions over an
  explicit database state `DB`.  SQL tables become lists of records, `NOW()`
  becomes an explicit `now : Nat` parameter (milliseconds), and the random
  `nanoid` identifiers become explicitly supplied fresh-id strings.  Fallible
  operations (TypeScript `throw`) return `Except String`.  Timestamp columns
  that no property observes (`registered_at`, `updated_at`, `cached_at`) are
  not represented.  The SHA-256 digest inside
  `ServiceRegistry.calculateCodeHash` and the JSON serialisation it consumes
  are modelled as an uninterpreted deterministic function parameter
  `hashOf : TaskSpec → String`; all the registry's control flow around it is
  embedded faithfully.
-/

namespace PipeWeave

/-- Task run status values (task_runs.status). -/
inductive Status
  | pending
  | running
  | waiting
  | completed
  | failed
  | timeout
  | cancelled
deriving DecidableEq

/-- Pipeline run status values (pipeline_runs.status). -/
inductive PStatus
  | running
  | completed
  | failed
deriving DecidableEq

/-- Pipeline failure modes. -/
inductive FailureMode
  | failFast
  | continueMode
deriving DecidableEq

/-- Retry backoff strategies. -/
inductive RetryBackoff
  | fixed
  | exponential
deriving DecidableEq

/-- An upstream reference entry, `upstreamRefs[taskId] = \x7boutputPath, assets\x7d`. -/
structure UpstreamRef where
  outputPath : String
  assets : List (String × String)
deriving DecidableEq

/-- One entry of `previous_attempts`. -/
structure AttemptRecord where
  attempt : Nat
  error : String
  errorCode : Option String
  timestamp : Nat
deriving DecidableEq

/-- A row of the `task_runs` table. -/
structure TaskRun where
  id : String
  taskId : String
  pipelineRunId : Option String
  status : Status
  codeVersion : Nat
  codeHash : String
  attempt : Nat
  maxRetries : Nat
  priority : Int
  inputPath : String
  outputPath : Option String
  outputSize : Option Nat
  assets : Option (List (String × String))
  logsPath : Option String
  upstreamRefs : List (String × UpstreamRef)
  previousAttempts : List AttemptRecord
  idempotencyKey : Option String
  scheduledFor : Option Nat
  createdAt : Nat
  startedAt : Option Nat
  completedAt : Option Nat
  error : Option String
  errorCode : Option String
deriving DecidableEq

/-- A row of the `tasks` table (a registered task definition). -/
structure TaskDef where
  id : String
  serviceId : String
  codeHash : String
  codeVersion : Nat
  allowedNext : List String
  timeoutSeconds : Nat
  retries : Nat
  retryBackoff : RetryBackoff
  retryDelayMs : Nat
  maxRetryDelayMs : Nat
  heartbeatIntervalMs : Nat
  concurrency : Nat
  priority : Int
  idempotencyTTLSeconds : Option Nat
  description : Option String
deriving DecidableEq

/-- A row of the `services` table. -/
structure Service where
  id : String
  version : String
  baseUrl : String
  status : String
deriving DecidableEq

/-- A row of the `pipelines` table.  `structureMap` is the JSON `structure`
column, `taskId → allowedNext`. -/
structure Pipeline where
  id : String
  name : String
  entryTasks : List String
  structureMap : List (String × List String)
  version : String
  failureMode : FailureMode
deriving DecidableEq

/-- A row of the `pipeline_runs` table. -/
structure PipelineRun where
  id : String
  pipelineId : String
  pipelineVersion : String
  structureSnapshot : List (String × List String)
  status : PStatus
  inputPath : String
  failureMode : FailureMode
  createdAt : Nat
  completedAt : Option Nat
deriving DecidableEq

/-- A row of the `idempotency_cache` table. -/
structure IdemEntry where
  key : String
  taskId : String
  taskRunId : String
  codeVersion : Nat
  outputPath : String
  outputSize : Option Nat
  assets : Option (List (String × String))
  expiresAt : Nat
deriving DecidableEq

/-- A row of the `dlq` table. -/
structure DLQRow where
  id : String
  taskRunId : String
  taskId : String
  pipelineRunId : Option String
  codeVersion : Nat
  codeHash : String
  error : String
  attempts : Nat
  inputPath : String
  failedAt : Nat
deriving DecidableEq

/-- A row of the `task_code_history` table. -/
structure HistoryRow where
  taskId : String
  codeVersion : Nat
  codeHash : String
  serviceVersion : String
  recordedAt : Nat
deriving DecidableEq

/-- The database state shared by all components. -/
structure DB where
  services : List Service
  tasks : List TaskDef
  pipelines : List Pipeline
  pipelineRuns : List PipelineRun
  taskRuns : List TaskRun
  dlq : List DLQRow
  idempotencyCache : List IdemEntry
  taskCodeHistory : List HistoryRow
deriving DecidableEq

/-- SELECT a task run by primary key (oneOrNone). -/
def findTaskRun (db : DB) (runId : String) : Option TaskRun :=
  db.taskRuns.find? fun r => decide (r.id = runId)

/-- SELECT a task definition by primary key (oneOrNone). -/
def findTask (db : DB) (taskId : String) : Option TaskDef :=
  db.tasks.find? fun t => decide (t.id = taskId)

/-- SELECT a pipeline run by primary key (oneOrNone). -/
def findPipelineRun (db : DB) (prid : String) : Option PipelineRun :=
  db.pipelineRuns.find? fun pr => decide (pr.id = prid)

/-- SELECT a pipeline by primary key (oneOrNone). -/
def findPipeline (db : DB) (pid : String) : Option Pipeline :=
  db.pipelines.find? fun p => decide (p.id = pid)

/-- The result shape returned by IdempotencyManager.checkIdempotency. -/
structure CachedResult where
  taskRunId : String
  outputPath : String
  outputSize : Option Nat
  assets : Option (List (String × String))
deriving DecidableEq

/-- IdempotencyManager.checkIdempotency: SELECT from idempotency_cache WHERE
idempotency_key matches AND expires_at is strictly in the future. -/
def checkIdempotency (db : DB) (now : Nat) (idempotencyKey : String) : Option CachedResult :=
  (db.idempotencyCache.find? fun e =>
      decide (e.key = idempotencyKey) && decide (now < e.expiresAt)).map
    fun e =>
      { taskRunId := e.taskRunId
        outputPath := e.outputPath
        outputSize := e.outputSize
        assets := e.assets }

/-- The options record accepted by QueueManager.enqueue.  The raw `input`
payload is not stored by the core (only the derived `inputPath` is), so it is
not represented. -/
structure QueueTaskOptions where
  taskId : String
  priority : Option Int
  pipelineRunId : Option String
  upstreamRefs : Option (List (String × UpstreamRef))
  idempotencyKey : Option String
  scheduledFor : Option Nat
deriving DecidableEq

/-- The result shape returned by QueueManager.enqueue; `status` is the string
literal the source returns. -/
structure QueuedTask where
  runId : String
  taskId : String
  status : String
  inputPath : String
deriving DecidableEq

/-- QueueManager.enqueue.  `freshId` stands for the random nanoid suffix. -/
def enqueue (db : DB) (now : Nat) (freshId : String) (o : QueueTaskOptions) :
    Except String (QueuedTask × DB) :=
  match findTask db o.taskId with
  | none => Except.error ("Task not found: " ++ o.taskId)
  | some task =>
    let cachedHit : Option CachedResult :=
      match o.idempotencyKey with
      | some key => checkIdempotency db now key
      | none => none
    match cachedHit with
    | some cached =>
      Except.ok
        ({ runId := cached.taskRunId
           taskId := o.taskId
           status := "completed"
           inputPath := cached.outputPath }, db)
    | none =>
      let runId := "trun_" ++ freshId
      let inputPath :=
        match o.pipelineRunId with
        | some prid => "runs/" ++ prid ++ "/tasks/" ++ runId ++ "/input.json"
        | none => "standalone/" ++ runId ++ "/input.json"
      let taskPriority := o.priority.getD task.priority
      let newRun : TaskRun :=
        { id := runId
          taskId := o.taskId
          pipelineRunId := o.pipelineRunId
          status := Status.pending
          codeVersion := task.codeVersion
          codeHash := task.codeHash
          attempt := 1
          maxRetries := task.retries
          priority := taskPriority
          inputPath := inputPath
          outputPath := none
          outputSize := none
          assets := none
          logsPath := none
          upstreamRefs := o.upstreamRefs.getD []
          previousAttempts := []
          idempotencyKey := o.idempotencyKey
          scheduledFor := o.scheduledFor
          createdAt := now
          startedAt := none
          completedAt := none
          error := none
          errorCode := none }
      Except.ok
        ({ runId := runId
           taskId := o.taskId
           status := "pending"
           inputPath := inputPath },
         { db with taskRuns := db.taskRuns ++ [newRun] })

/-- The per-task count of rows in status running (the running_counts CTE of
QueueManager.getNext). -/
def runningCount (db : DB) (taskId : String) : Nat :=
  (db.taskRuns.filter fun r =>
      decide (r.taskId = taskId) && decide (r.status = Status.running)).length

/-- The WHERE predicate of QueueManager.getNext for one task_runs row: pending,
due, and the per-task running count below the task's concurrency (0 means
unlimited).  The LEFT JOIN against tasks yields NULL comparisons that exclude
the row when the task definition is missing. -/
def eligiblePending (db : DB) (now : Nat) (r : TaskRun) : Bool :=
  decide (r.status = Status.pending)
    && (match r.scheduledFor with
        | none => true
        | some t => decide (t ≤ now))
    && (match findTask db r.taskId with
        | none => false
        | some t => decide (t.concurrency = 0) || decide (runningCount db r.taskId < t.concurrency))

/-- The ORDER BY priority ASC, created_at ASC comparison of getNext. -/
def priLE (a b : TaskRun) : Bool :=
  decide (a.priority < b.priority)
    || (decide (a.priority = b.priority) && decide (a.createdAt ≤ b.createdAt))

/-- Insertion step of the insertion sort used to model ORDER BY. -/
def insertByPri (x : TaskRun) : List TaskRun → List TaskRun
  | [] => [x]
  | y :: ys => if priLE x y then x :: y :: ys else y :: insertByPri x ys

/-- Insertion sort by (priority ASC, created_at ASC). -/
def sortByPri : List TaskRun → List TaskRun
  | [] => []
  | x :: xs => insertByPri x (sortByPri xs)

/-- QueueManager.getNext: the eligible pending rows, ordered, limited. -/
def getNext (db : DB) (now : Nat) (limit : Nat) : List TaskRun :=
  (sortByPri (db.taskRuns.filter (eligiblePending db now))).take limit

/-- QueueManager.markRunning: UPDATE status and started_at WHERE id matches
(the SQL carries no status guard). -/
def markRunning (db : DB) (now : Nat) (runId : String) : DB :=
  { db with
    taskRuns := db.taskRuns.map fun r =>
      if r.id = runId then { r with status := Status.running, startedAt := some now } else r }

/-- QueueManager.markCompleted: UPDATE status, output fields and completed_at
WHERE id matches (no status guard).  The maintenance hook it triggers only
touches the maintenance singleton, which no claim observes. -/
def markCompleted (db : DB) (now : Nat) (runId : String) (outputPath : String)
    (outputSize : Option Nat) (assets : Option (List (String × String)))
    (logsPath : Option String) : DB :=
  { db with
    taskRuns := db.taskRuns.map fun r =>
      if r.id = runId then
        { r with
          status := Status.completed
          outputPath := some outputPath
          outputSize := outputSize
          assets := assets
          logsPath := logsPath
          completedAt := some now }
      else r }

/-- QueueManager.markFailed: UPDATE status, error fields and completed_at
WHERE id matches (no status guard). -/
def markFailed (db : DB) (now : Nat) (runId : String) (err : String)
    (errorCode : Option String) : DB :=
  { db with
    taskRuns := db.taskRuns.map fun r =>
      if r.id = runId then
        { r with
          status := Status.failed
          error := some err
          errorCode := errorCode
          completedAt := some now }
      else r }

/-- The options record accepted by RetryManager.scheduleRetry. -/
structure RetryOptions where
  runId : String
  taskId : String
  attempt : Nat
  maxRetries : Nat
  retryBackoff : RetryBackoff
  retryDelayMs : Nat
  maxRetryDelayMs : Nat
  error : String
  errorCode : Option String
deriving DecidableEq

/-- RetryManager.calculateDelay: fixed delay, or exponential
min(base * 2 ^ (attempt - 1), max). -/
def calculateDelay (o : RetryOptions) : Nat :=
  match o.retryBackoff with
  | RetryBackoff.fixed => o.retryDelayMs
  | RetryBackoff.exponential => min (o.retryDelayMs * 2 ^ (o.attempt - 1)) o.maxRetryDelayMs

/-- RetryManager.scheduleRetry.  Returns false without touching the state when
attempt is at least maxRetries; otherwise resets the row to pending with the
incremented attempt, the scheduled time, the appended attempt record, and
cleared error fields. -/
def scheduleRetry (db : DB) (now : Nat) (o : RetryOptions) : Bool × DB :=
  if o.maxRetries ≤ o.attempt then (false, db)
  else
    let delay := calculateDelay o
    let scheduledFor := now + delay
    let attemptRecord : AttemptRecord :=
      { attempt := o.attempt, error := o.error, errorCode := o.errorCode, timestamp := now }
    (true,
     { db with
       taskRuns := db.taskRuns.map fun r =>
         if r.id = o.runId then
           { r with
             status := Status.pending
             attempt := o.attempt + 1
             scheduledFor := some scheduledFor
             previousAttempts := r.previousAttempts ++ [attemptRecord]
             error := none
             errorCode := none }
         else r })

/-- DLQManager.add: INSERT a dlq row capturing the run's identity.
The upstream_refs and previous_attempts JSON payloads stored on the dlq row
are not represented; no claim reads them back. -/
def dlqAdd (db : DB) (now : Nat) (dlqFreshId : String) (taskRun : TaskRun) (err : String) : DB :=
  { db with
    dlq := db.dlq ++
      [{ id := "dlq_" ++ dlqFreshId
         taskRunId := taskRun.id
         taskId := taskRun.taskId
         pipelineRunId := taskRun.pipelineRunId
         codeVersion := taskRun.codeVersion
         codeHash := taskRun.codeHash
         error := err
         attempts := taskRun.attempt
         inputPath := taskRun.inputPath
         failedAt := now }] }

/-- The dispatch-failure branch of TaskPoller.poll: when the claimed task's
attempt is still below maxRetries the retry is scheduled; otherwise the run
goes to the DLQ and is marked failed with error code DISPATCH_FAILED.
`task` is the claimed row (the PendingTask snapshot from getNext) and
`taskDef` the registered definition consulted for the backoff settings. -/
def handleDispatchFailure (db : DB) (now : Nat) (dlqFreshId : String)
    (task : TaskRun) (taskDef : TaskDef) (errMsg : String) : DB :=
  if task.attempt < task.maxRetries then
    (scheduleRetry db now
      { runId := task.id
        taskId := task.taskId
        attempt := task.attempt
        maxRetries := task.maxRetries
        retryBackoff := taskDef.retryBackoff
        retryDelayMs := taskDef.retryDelayMs
        maxRetryDelayMs := taskDef.maxRetryDelayMs
        error := errMsg
        errorCode := some "DISPATCH_FAILED" }).2
  else
    markFailed (dlqAdd db now dlqFreshId task errMsg) now task.id errMsg (some "DISPATCH_FAILED")

/-- An in-memory heartbeat tracker entry of HeartbeatMonitor. -/
structure Tracker where
  runId : String
  taskId : String
  timeoutMs : Nat
deriving DecidableEq

/-- HeartbeatMonitor.startTracking: arms a timer for 2 x heartbeatIntervalMs
and stores the tracker under the runId (Map.set semantics). -/
def startTracking (trackers : List Tracker) (runId taskId : String)
    (heartbeatIntervalMs : Nat) : List Tracker :=
  let timeoutMs := heartbeatIntervalMs * 2
  let tracker : Tracker := { runId := runId, taskId := taskId, timeoutMs := timeoutMs }
  if trackers.any fun t => decide (t.runId = runId) then
    trackers.map fun t => if t.runId = runId then tracker else t
  else
    trackers ++ [tracker]

/-- The UPDATE handleTimeout issues: set the run to timeout WHERE id matches
AND status is still running. -/
def timeoutUpdate (db : DB) (now : Nat) (runId : String) : DB :=
  { db with
    taskRuns := db.taskRuns.map fun r =>
      if r.id = runId ∧ r.status = Status.running then
        { r with
          status := Status.timeout
          error := some "Task heartbeat timeout"
          errorCode := some "TIMEOUT"
          completedAt := some now }
      else r }

/-- HeartbeatMonitor.handleTimeout: if the tracker is gone, do nothing;
otherwise issue the guarded timeout UPDATE and drop the tracker. -/
def handleTimeout (trackers : List Tracker) (db : DB) (now : Nat) (runId : String) :
    List Tracker × DB :=
  match trackers.find? (fun t => decide (t.runId = runId)) with
  | none => (trackers, db)
  | some _ =>
    (trackers.filter fun t => !decide (t.runId = runId), timeoutUpdate db now runId)

/-- The predecessor scan shared by isJoinTaskReady and buildUpstreamRefs:
every task of the structure snapshot whose allowedNext contains the task. -/
def predecessorsOf (snapshot : List (String × List String)) (taskId : String) : List String :=
  (snapshot.filter fun p => decide (taskId ∈ p.2)).map Prod.fst

/-- PipelineExecutor.isJoinTaskReady.  With two or more predecessors the code
compares the total COUNT of completed task_runs rows whose task_id is any
predecessor against the number of predecessors. -/
def isJoinTaskReady (db : DB) (taskId : String) (pipelineRunId : String) : Bool :=
  match findPipelineRun db pipelineRunId with
  | none => false
  | some pr =>
    let predecessors := predecessorsOf pr.structureSnapshot taskId
    if predecessors.length = 0 then true
    else if predecessors.length = 1 then true
    else
      let completedCount :=
        (db.taskRuns.filter fun r =>
            decide (r.pipelineRunId = some pipelineRunId)
              && decide (r.taskId ∈ predecessors)
              && decide (r.status = Status.completed)).length
      decide (completedCount = predecessors.length)

/-- ORDER BY completed_at DESC over task_runs rows; a NULL completed_at sorts
first, matching the Postgres default for DESC. -/
def completedAtDescLE (a b : TaskRun) : Bool :=
  match a.completedAt, b.completedAt with
  | none, _ => true
  | some _, none => false
  | some x, some y => decide (y ≤ x)

/-- Insertion step of the insertion sort used to model ORDER BY completed_at
DESC. -/
def insertByCompletedAtDesc (x : TaskRun) : List TaskRun → List TaskRun
  | [] => [x]
  | y :: ys =>
    if completedAtDescLE x y then x :: y :: ys else y :: insertByCompletedAtDesc x ys

/-- Insertion sort by completed_at DESC. -/
def sortByCompletedAtDesc : List TaskRun → List TaskRun
  | [] => []
  | x :: xs => insertByCompletedAtDesc x (sortByCompletedAtDesc xs)

/-- The JavaScript object assignment upstreamRefs[taskId] = ref: overwrite the
existing key in place, or append a new one. -/
def insertRef (refs : List (String × UpstreamRef)) (tid : String) (ref : UpstreamRef) :
    List (String × UpstreamRef) :=
  if refs.any fun p => decide (p.1 = tid) then
    refs.map fun p => if p.1 = tid then (tid, ref) else p
  else
    refs ++ [(tid, ref)]

/-- PipelineExecutor.buildUpstreamRefs: the completed predecessor rows are
fetched ORDER BY completed_at DESC and folded into an object, each row with a
non-null output_path assigning (and therefore overwriting) its task's entry. -/
def buildUpstreamRefs (db : DB) (taskId : String) (pipelineRunId : String) :
    List (String × UpstreamRef) :=
  match findPipelineRun db pipelineRunId with
  | none => []
  | some pr =>
    let predecessors := predecessorsOf pr.structureSnapshot taskId
    if predecessors.length = 0 then []
    else
      let upstreamRuns :=
        sortByCompletedAtDesc (db.taskRuns.filter fun r =>
          decide (r.pipelineRunId = some pipelineRunId)
            && decide (r.taskId ∈ predecessors)
            && decide (r.status = Status.completed))
      upstreamRuns.foldl
        (fun refs run =>
          match run.outputPath with
          | some op => insertRef refs run.taskId { outputPath := op, assets := run.assets.getD [] }
          | none => refs)
        []

/-- PipelineExecutor.checkPipelineCompletion: a still-running pipeline run
with no pending, running or waiting task runs left is marked failed when any
task run failed, timed out or was cancelled, and completed otherwise. -/
def checkPipelineCompletion (db : DB) (now : Nat) (pipelineRunId : String) : DB :=
  match findPipelineRun db pipelineRunId with
  | none => db
  | some pr =>
    if pr.status ≠ PStatus.running then db
    else
      let activeCount :=
        (db.taskRuns.filter fun r =>
            decide (r.pipelineRunId = some pipelineRunId)
              && (decide (r.status = Status.pending) || decide (r.status = Status.running)
                  || decide (r.status = Status.waiting))).length
      if 0 < activeCount then db
      else
        let failedCount :=
          (db.taskRuns.filter fun r =>
              decide (r.pipelineRunId = some pipelineRunId)
                && (decide (r.status = Status.failed) || decide (r.status = Status.timeout)
                    || decide (r.status = Status.cancelled))).length
        let newStatus := if 0 < failedCount then PStatus.failed else PStatus.completed
        { db with
          pipelineRuns := db.pipelineRuns.map fun p =>
            if p.id = pipelineRunId then { p with status := newStatus, completedAt := some now }
            else p }

/-- The per-next-task loop body of PipelineExecutor.queueDownstreamTasks,
threading the transactional state: skip a join task that is not ready,
otherwise build the upstream refs and enqueue, inheriting the completed run's
priority.  `freshIds` supplies one nanoid per enqueue. -/
def queueDownstreamLoop (now : Nat) (pipelineRunId : String) (inheritedPriority : Int) :
    List String → List String → DB → Except String (List String × DB)
  | [], _, db => Except.ok ([], db)
  | nextTaskId :: rest, freshIds, db =>
    if isJoinTaskReady db nextTaskId pipelineRunId then
      let upstreamRefs := buildUpstreamRefs db nextTaskId pipelineRunId
      match enqueue db now (freshIds.headD "fresh")
          { taskId := nextTaskId
            priority := some inheritedPriority
            pipelineRunId := some pipelineRunId
            upstreamRefs := some upstreamRefs
            idempotencyKey := none
            scheduledFor := none } with
      | Except.error e => Except.error e
      | Except.ok (queuedTask, db') =>
        match queueDownstreamLoop now pipelineRunId inheritedPriority rest (freshIds.drop 1) db' with
        | Except.error e => Except.error e
        | Except.ok (queued, db'') => Except.ok (queuedTask.runId :: queued, db'')
    else
      queueDownstreamLoop now pipelineRunId inheritedPriority rest freshIds db

/-- PipelineExecutor.queueDownstreamTasks.  A failing enqueue aborts the
transaction, so the error case surfaces with no state change. -/
def queueDownstreamTasks (db : DB) (now : Nat) (freshIds : List String)
    (completedTaskRunId : String) (selectedNext : Option (List String)) :
    Except String (List String × DB) :=
  match findTaskRun db completedTaskRunId with
  | none => Except.error ("Task run not found: " ++ completedTaskRunId)
  | some taskRun =>
    match taskRun.pipelineRunId with
    | none => Except.ok ([], db)
    | some pipelineRunId =>
      match findTask db taskRun.taskId with
      | none => Except.error ("Task not found: " ++ taskRun.taskId)
      | some task =>
        let nextTaskIds :=
          match selectedNext with
          | some sel =>
            if 0 < sel.length then sel.filter fun i => decide (i ∈ task.allowedNext)
            else task.allowedNext
          | none => task.allowedNext
        if nextTaskIds.isEmpty then
          Except.ok ([], checkPipelineCompletion db now pipelineRunId)
        else
          queueDownstreamLoop now pipelineRunId taskRun.priority nextTaskIds freshIds db

/-- PipelineExecutor.handleTaskFailure: under fail-fast, cancel the pending
task runs of the pipeline run and mark the run failed; otherwise fall through
to the completion check. -/
def handleTaskFailure (db : DB) (now : Nat) (taskRunId : String) : DB :=
  match findTaskRun db taskRunId with
  | none => db
  | some taskRun =>
    match taskRun.pipelineRunId with
    | none => db
    | some pipelineRunId =>
      match findPipelineRun db pipelineRunId with
      | none => db
      | some pr =>
        if pr.failureMode = FailureMode.failFast then
          let db1 : DB :=
            { db with
              taskRuns := db.taskRuns.map fun r =>
                if r.pipelineRunId = some pipelineRunId ∧ r.status = Status.pending then
                  { r with
                    status := Status.cancelled
                    error := some "Pipeline failed in fail-fast mode"
                    completedAt := some now }
                else r }
          { db1 with
            pipelineRuns := db1.pipelineRuns.map fun p =>
              if p.id = pipelineRunId then { p with status := PStatus.failed, completedAt := some now }
              else p }
        else
          checkPipelineCompletion db now pipelineRunId

/-- The options record accepted by PipelineExecutor.triggerPipeline (the raw
input payload and metadata are not stored by the core). -/
structure TriggerOptions where
  pipelineId : String
  failureMode : Option FailureMode
  priority : Option Int
deriving DecidableEq

/-- The destructuring default of triggerPipeline: failureMode = 'fail-fast'.
After it the local is never nullish. -/
def destructuredFailureMode (optFM : Option FailureMode) : Option FailureMode :=
  some (optFM.getD FailureMode.failFast)

/-- The value the INSERT actually stores: failureMode ?? pipeline.failure_mode,
applied to the already-defaulted local, so the fallback to the pipeline's own
failure mode can never fire. -/
def insertedFailureMode (optFM : Option FailureMode) (pipelineFM : FailureMode) : FailureMode :=
  (destructuredFailureMode optFM).getD pipelineFM

/-- The entry-task enqueue loop of triggerPipeline. -/
def triggerEnqueueLoop (now : Nat) (pipelineRunId : String) (priority : Option Int) :
    List String → List String → DB → Except String (List String × DB)
  | [], _, db => Except.ok ([], db)
  | taskId :: rest, freshIds, db =>
    match enqueue db now (freshIds.headD "fresh")
        { taskId := taskId
          priority := priority
          pipelineRunId := some pipelineRunId
          upstreamRefs := none
          idempotencyKey := none
          scheduledFor := none } with
    | Except.error e => Except.error e
    | Except.ok (queuedTask, db') =>
      match triggerEnqueueLoop now pipelineRunId priority rest (freshIds.drop 1) db' with
      | Except.error e => Except.error e
      | Except.ok (queued, db'') => Except.ok (queuedTask.runId :: queued, db'')

/-- The result shape returned by PipelineExecutor.triggerPipeline. -/
structure PipelineRunInfo where
  pipelineRunId : String
  pipelineId : String
  status : PStatus
  inputPath : String
  entryTaskIds : List String
  queuedTasks : List String
deriving DecidableEq

/-- PipelineExecutor.triggerPipeline.  The validator's verdict over the entry
tasks is abstracted as the `validate` parameter; `runFreshId` stands for the
nanoid of the pipeline run and `freshIds` for those of the entry task runs. -/
def triggerPipeline (validate : List String → Bool) (db : DB) (now : Nat)
    (runFreshId : String) (freshIds : List String) (o : TriggerOptions) :
    Except String (PipelineRunInfo × DB) :=
  match findPipeline db o.pipelineId with
  | none => Except.error ("Pipeline not found: " ++ o.pipelineId)
  | some pipeline =>
    if !validate pipeline.entryTasks then
      Except.error "Pipeline validation failed"
    else
      let pipelineRunId := "prun_" ++ runFreshId
      let inputPath := "runs/" ++ pipelineRunId ++ "/input.json"
      let newRun : PipelineRun :=
        { id := pipelineRunId
          pipelineId := o.pipelineId
          pipelineVersion := pipeline.version
          structureSnapshot := pipeline.structureMap
          status := PStatus.running
          inputPath := inputPath
          failureMode := insertedFailureMode o.failureMode pipeline.failureMode
          createdAt := now
          completedAt := none }
      let db1 : DB := { db with pipelineRuns := db.pipelineRuns ++ [newRun] }
      match triggerEnqueueLoop now pipelineRunId o.priority pipeline.entryTasks freshIds db1 with
      | Except.error e => Except.error e
      | Except.ok (queued, db2) =>
        Except.ok
          ({ pipelineRunId := pipelineRunId
             pipelineId := o.pipelineId
             status := PStatus.running
             inputPath := inputPath
             entryTaskIds := pipeline.entryTasks
             queuedTasks := queued }, db2)

/-- An incoming task config of a RegisterServiceRequest, every field beyond
the id optional as in the wire shape. -/
structure TaskSpec where
  id : String
  allowedNext : Option (List String)
  timeout : Option Nat
  retries : Option Nat
  retryBackoff : Option RetryBackoff
  retryDelayMs : Option Nat
  maxRetryDelayMs : Option Nat
  heartbeatIntervalMs : Option Nat
  concurrency : Option Nat
  priority : Option Int
  idempotencyTTL : Option Nat
  description : Option String
deriving DecidableEq

/-- A RegisterServiceRequest. -/
structure RegisterRequest where
  serviceId : String
  version : String
  baseUrl : String
  tasks : List TaskSpec
deriving DecidableEq

/-- One code-change entry of a RegisterServiceResponse. -/
structure CodeChange where
  taskId : String
  oldHash : String
  newHash : String
  oldVersion : Nat
  newVersion : Nat
deriving DecidableEq

/-- The services-table upsert of registerService: on conflict the version,
base url and status are refreshed. -/
def upsertService (db : DB) (req : RegisterRequest) : DB :=
  let row : Service :=
    { id := req.serviceId, version := req.version, baseUrl := req.baseUrl, status := "active" }
  if db.services.any fun s => decide (s.id = req.serviceId) then
    { db with services := db.services.map fun s => if s.id = req.serviceId then row else s }
  else
    { db with services := db.services ++ [row] }

/-- Cancelling the pending runs of an orphaned task with the descriptive
error, as registerService does when the service version changed. -/
def cancelPendingRunsOfTask (db : DB) (now : Nat) (taskId : String) (version : String) : DB :=
  { db with
    taskRuns := db.taskRuns.map fun r =>
      if r.taskId = taskId ∧ r.status = Status.pending then
        { r with
          status := Status.cancelled
          error := some ("Task type removed in version " ++ version)
          completedAt := some now }
      else r }

/-- The tasks-table row registerService upserts for one incoming task, with
the source's defaulting of every optional field. -/
def mkTaskRow (serviceId : String) (codeHash : String) (codeVersion : Nat)
    (spec : TaskSpec) : TaskDef :=
  { id := spec.id
    serviceId := serviceId
    codeHash := codeHash
    codeVersion := codeVersion
    allowedNext := spec.allowedNext.getD []
    timeoutSeconds := spec.timeout.getD 300
    retries := spec.retries.getD 3
    retryBackoff := spec.retryBackoff.getD RetryBackoff.exponential
    retryDelayMs := spec.retryDelayMs.getD 1000
    maxRetryDelayMs := spec.maxRetryDelayMs.getD 86400000
    heartbeatIntervalMs := spec.heartbeatIntervalMs.getD 60000
    concurrency := spec.concurrency.getD 0
    priority := spec.priority.getD 100
    idempotencyTTLSeconds := spec.idempotencyTTL
    description := spec.description }

/-- The tasks-table upsert (INSERT ... ON CONFLICT (id) DO UPDATE). -/
def upsertTaskRow (db : DB) (row : TaskDef) : DB :=
  if db.tasks.any fun t => decide (t.id = row.id) then
    { db with tasks := db.tasks.map fun t => if t.id = row.id then row else t }
  else
    { db with tasks := db.tasks ++ [row] }

/-- The per-incoming-task body of registerService: compute the hash, keep or
bump the version, upsert the row, and on a hash change insert the history row
(unless one exists for the same task and hash) and record the code change. -/
def processRegisterTask (hashOf : TaskSpec → String) (serviceId serviceVersion : String)
    (now : Nat) (acc : DB × List CodeChange) (spec : TaskSpec) : DB × List CodeChange :=
  let db := acc.1
  let changes := acc.2
  let codeHash := hashOf spec
  match findTask db spec.id with
  | none =>
    (upsertTaskRow db (mkTaskRow serviceId codeHash 1 spec), changes)
  | some existingTask =>
    if codeHash = existingTask.codeHash then
      (upsertTaskRow db (mkTaskRow serviceId codeHash existingTask.codeVersion spec), changes)
    else
      let newVersion := existingTask.codeVersion + 1
      let db1 := upsertTaskRow db (mkTaskRow serviceId codeHash newVersion spec)
      let db2 :=
        if db1.taskCodeHistory.any fun h =>
            decide (h.taskId = spec.id) && decide (h.codeHash = codeHash) then db1
        else
          { db1 with
            taskCodeHistory := db1.taskCodeHistory ++
              [{ taskId := spec.id
                 codeVersion := newVersion
                 codeHash := codeHash
                 serviceVersion := serviceVersion
                 recordedAt := now }] }
      (db2,
       changes ++
        [{ taskId := spec.id
           oldHash := existingTask.codeHash
           newHash := codeHash
           oldVersion := existingTask.codeVersion
           newVersion := newVersion }])

/-- ServiceRegistry.registerService.  Returns (codeChanges, orphanedTasks)
with the updated state.  The digest of the canonical JSON serialisation is the
parameter `hashOf`. -/
def registerService (hashOf : TaskSpec → String) (db : DB) (now : Nat)
    (req : RegisterRequest) : (List CodeChange × List String) × DB :=
  let existingService := db.services.find? fun s => decide (s.id = req.serviceId)
  let versionChanged :=
    match existingService with
    | some s => decide (s.version ≠ req.version)
    | none => false
  let db0 := upsertService db req
  let orphanStep :=
    if versionChanged then
      let newTaskIds := req.tasks.map TaskSpec.id
      let existingTasks := db0.tasks.filter fun t => decide (t.serviceId = req.serviceId)
      existingTasks.foldl
        (fun (acc : DB × List String) t =>
          if decide (t.id ∈ newTaskIds) then acc
          else (cancelPendingRunsOfTask acc.1 now t.id req.version, acc.2 ++ [t.id]))
        (db0, [])
    else (db0, [])
  let db1 := orphanStep.1
  let orphanedTasks := orphanStep.2
  let finalStep :=
    req.tasks.foldl (processRegisterTask hashOf req.serviceId req.version now) (db1, [])
  ((finalStep.2, orphanedTasks), finalStep.1)

/-- The lookup used to state the registry claims: the stored code version of a
task id. -/
def taskVersionOf (db : DB) (taskId : String) : Option Nat :=
  (findTask db taskId).map TaskDef.codeVersion

/-- The lookup used in the registry proofs: the stored code hash of a task
id. -/
def taskHashOf (db : DB) (taskId : String) : Option String :=
  (findTask db taskId).map TaskDef.codeHash

/-- The status-changing operations named by the monotonic-progression claim,
each carrying the arguments of the corresponding source method. -/
inductive QueueOp
  | opMarkRunning (runId : String)
  | opMarkCompleted (runId : String) (outputPath : String) (outputSize : Option Nat)
      (assets : Option (List (String × String))) (logsPath : Option String)
  | opMarkFailed (runId : String) (error : String) (errorCode : Option String)
  | opScheduleRetry (o : RetryOptions)
  | opHandleTimeout (runId : String)
deriving DecidableEq

/-- Application of one operation to the database, exactly as the source
methods update it (the heartbeat case is the timer's guarded UPDATE). -/
def applyOp (db : DB) (now : Nat) : QueueOp → DB
  | QueueOp.opMarkRunning runId => markRunning db now runId
  | QueueOp.opMarkCompleted runId outputPath outputSize assets logsPath =>
    markCompleted db now runId outputPath outputSize assets logsPath
  | QueueOp.opMarkFailed runId err errorCode => markFailed db now runId err errorCode
  | QueueOp.opScheduleRetry o => (scheduleRetry db now o).2
  | QueueOp.opHandleTimeout runId => timeoutUpdate db now runId

/-- The call discipline the orchestrator maintains around the unguarded
UPDATEs: markRunning is invoked only on runs claimed while pending,
markCompleted and markFailed only on running runs, and scheduleRetry only on a
run that has reached failed or timeout at the attempt the caller passes.  The
heartbeat timeout carries its guard in its own SQL. -/
def opGuard (db : DB) : QueueOp → Prop
  | QueueOp.opMarkRunning runId =>
    ∀ r ∈ db.taskRuns, r.id = runId → r.status = Status.pending
  | QueueOp.opMarkCompleted runId _ _ _ _ =>
    ∀ r ∈ db.taskRuns, r.id = runId → r.status = Status.running
  | QueueOp.opMarkFailed runId _ _ =>
    ∀ r ∈ db.taskRuns, r.id = runId → r.status = Status.running
  | QueueOp.opScheduleRetry o =>
    ∀ r ∈ db.taskRuns, r.id = o.runId →
      (r.status = Status.failed ∨ r.status = Status.timeout) ∧ r.attempt = o.attempt
  | QueueOp.opHandleTimeout _ => True

/-- The per-row transitions the monotonic-progression claim allows: no change,
pending to running or cancelled, running to a terminal outcome, or a retry
that re-pends a failed or timed-out run, incrementing attempt and clearing the
error fields. -/
def opAllowedStep (r r' : TaskRun) : Prop :=
  r' = r
    ∨ (r.status = Status.pending ∧ (r'.status = Status.running ∨ r'.status = Status.cancelled))
    ∨ (r.status = Status.running ∧
        (r'.status = Status.completed ∨ r'.status = Status.failed ∨ r'.status = Status.timeout))
    ∨ ((r.status = Status.failed ∨ r.status = Status.timeout) ∧ r'.status = Status.pending
        ∧ r'.attempt = r.attempt + 1 ∧ r'.error = none ∧ r'.errorCode = none)

/-- Modelled from the spec: the status-transition table the monotonic
progression claim asserts, as a Boolean relation on statuses (a no-op is
always allowed; from pending only running or cancelled; from running only
completed, failed or timeout; from a terminal state only pending). -/
def claimAllowedStatus (s s' : Status) : Bool :=
  if s = s' then true
  else
    match s with
    | Status.pending => decide (s' = Status.running) || decide (s' = Status.cancelled)
    | Status.running =>
      decide (s' = Status.completed) || decide (s' = Status.failed)
        || decide (s' = Status.timeout)
    | Status.waiting => false
    | _ => decide (s' = Status.pending)

/-- Modelled from the spec: the join-readiness condition the claim states,
namely that every distinct predecessor has at least one completed task run in
the pipeline run (the source compares a total row count instead). -/
def everyPredecessorHasCompletedRun (db : DB) (taskId : String) (pipelineRunId : String) : Bool :=
  match findPipelineRun db pipelineRunId with
  | none => false
  | some pr =>
    (predecessorsOf pr.structureSnapshot taskId).all fun p =>
      db.taskRuns.any fun r =>
        decide (r.pipelineRunId = some pipelineRunId)
          && decide (r.taskId = p)
          && decide (r.status = Status.completed)

/-- Modelled from the spec: the output path of the most recent (latest
completed_at) completed task run of a predecessor in a pipeline run, which the
upstream-refs claim says should win. -/
def mostRecentCompletedOutputPath (db : DB) (pipelineRunId taskId : String) : Option String :=
  ((sortByCompletedAtDesc (db.taskRuns.filter fun r =>
      decide (r.pipelineRunId = some pipelineRunId)
        && decide (r.taskId = taskId)
        && decide (r.status = Status.completed))).head?).bind TaskRun.outputPath

/-- The number of task-run rows of a task inside one pipeline run, used to
state what queueDownstreamTasks enqueued. -/
def runCountIn (db : DB) (taskId : String) (pipelineRunId : String) : Nat :=
  (db.taskRuns.filter fun r =>
      decide (r.taskId = taskId) && decide (r.pipelineRunId = some pipelineRunId)).length

/-- The empty database, the starting point of the concrete scenarios. -/
def emptyDB : DB :=
  { services := []
    tasks := []
    pipelines := []
    pipelineRuns := []
    taskRuns := []
    dlq := []
    idempotencyCache := []
    taskCodeHistory := [] }

/-- A task-run row with neutral defaults, specialised by the scenarios. -/
def baseRun (id taskId : String) : TaskRun :=
  { id := id
    taskId := taskId
    pipelineRunId := none
    status := Status.pending
    codeVersion := 1
    codeHash := "h0"
    attempt := 1
    maxRetries := 3
    priority := 100
    inputPath := "in.json"
    outputPath := none
    outputSize := none
    assets := none
    logsPath := none
    upstreamRefs := []
    previousAttempts := []
    idempotencyKey := none
    scheduledFor := none
    createdAt := 0
    startedAt := none
    completedAt := none
    error := none
    errorCode := none }

/-- A task definition with the registration defaults, specialised by the
scenarios. -/
def baseTask (id : String) : TaskDef :=
  { id := id
    serviceId := "svc"
    codeHash := "h0"
    codeVersion := 1
    allowedNext := []
    timeoutSeconds := 300
    retries := 3
    retryBackoff := RetryBackoff.exponential
    retryDelayMs := 1000
    maxRetryDelayMs := 86400000
    heartbeatIntervalMs := 60000
    concurrency := 0
    priority := 100
    idempotencyTTLSeconds := none
    description := none }

/-- A running pipeline run over the diamond-join snapshot A to (B, C) to D. -/
def joinPipelineRun : PipelineRun :=
  { id := "pr1"
    pipelineId := "pipe"
    pipelineVersion := "1.0.0"
    structureSnapshot := [("A", ["B", "C"]), ("B", ["D"]), ("C", ["D"]), ("D", [])]
    status := PStatus.running
    inputPath := "runs/pr1/input.json"
    failureMode := FailureMode.failFast
    createdAt := 0
    completedAt := none }

/-- C1 counterexample state: in the diamond, predecessor B of the join task D
completed twice while predecessor C never completed. -/
def dbJoinDup : DB :=
  { emptyDB with
    tasks := [{ baseTask "A" with allowedNext := ["B", "C"] },
              { baseTask "B" with allowedNext := ["D"] },
              { baseTask "C" with allowedNext := ["D"] },
              baseTask "D"]
    pipelineRuns := [joinPipelineRun]
    taskRuns :=
      [{ baseRun "rB1" "B" with
          pipelineRunId := some "pr1", status := Status.completed,
          outputPath := some "ob1", completedAt := some 1 },
       { baseRun "rB2" "B" with
          pipelineRunId := some "pr1", status := Status.completed,
          outputPath := some "ob2", completedAt := some 2 }] }

/-- C1 witness state: in the diamond, B and C each completed exactly once. -/
def dbJoinOk : DB :=
  { emptyDB with
    tasks := [{ baseTask "A" with allowedNext := ["B", "C"] },
              { baseTask "B" with allowedNext := ["D"] },
              { baseTask "C" with allowedNext := ["D"] },
              baseTask "D"]
    pipelineRuns := [joinPipelineRun]
    taskRuns :=
      [{ baseRun "rB1" "B" with
          pipelineRunId := some "pr1", status := Status.completed,
          outputPath := some "ob", completedAt := some 1 },
       { baseRun "rC1" "C" with
          pipelineRunId := some "pr1", status := Status.completed,
          outputPath := some "oc", completedAt := some 2 }] }

/-- C2 scenario state before the failure: a run of A still running, a run of
B that just failed, and a pending run of C, all in the fail-fast pipeline
run. -/
def dbFailFast : DB :=
  { emptyDB with
    tasks := [{ baseTask "A" with allowedNext := ["D"] },
              baseTask "B",
              baseTask "C",
              baseTask "D"]
    pipelineRuns :=
      [{ joinPipelineRun with
          structureSnapshot := [("A", ["D"]), ("B", []), ("C", []), ("D", [])] }]
    taskRuns :=
      [{ baseRun "rA" "A" with pipelineRunId := some "pr1", status := Status.running },
       { baseRun "rB" "B" with
          pipelineRunId := some "pr1", status := Status.failed,
          error := some "boom", completedAt := some 3 },
       { baseRun "rC" "C" with pipelineRunId := some "pr1", status := Status.pending }] }

/-- C2 counterexample state: the fail-fast cancellation already ran (pipeline
run failed, pending sibling cancelled) and then the still-running sibling A
completed. -/
def dbAfterFailFast : DB :=
  { emptyDB with
    tasks := [{ baseTask "A" with allowedNext := ["D"] },
              baseTask "B",
              baseTask "C",
              baseTask "D"]
    pipelineRuns :=
      [{ joinPipelineRun with
          structureSnapshot := [("A", ["D"]), ("B", []), ("C", []), ("D", [])]
          status := PStatus.failed
          completedAt := some 4 }]
    taskRuns :=
      [{ baseRun "rA" "A" with
          pipelineRunId := some "pr1", status := Status.completed,
          outputPath := some "oa", completedAt := some 5 },
       { baseRun "rB" "B" with
          pipelineRunId := some "pr1", status := Status.failed,
          error := some "boom", completedAt := some 3 },
       { baseRun "rC" "C" with
          pipelineRunId := some "pr1", status := Status.cancelled,
          error := some "Pipeline failed in fail-fast mode", completedAt := some 4 }] }

/-- C3 scenario: task X configured with retries 2, exponential backoff,
base delay 100ms, cap 10000ms, and its first attempt claimed for dispatch. -/
def taskX : TaskDef :=
  { baseTask "X" with
    retries := 2, retryBackoff := RetryBackoff.exponential,
    retryDelayMs := 100, maxRetryDelayMs := 10000 }

/-- C3 scenario: the initial run of X at attempt 1. -/
def runX : TaskRun := { baseRun "rX" "X" with maxRetries := 2 }

/-- C3 scenario: the initial state holding task X and its first attempt. -/
def dbRetry : DB := { emptyDB with tasks := [taskX], taskRuns := [runX] }

/-- C3 scenario: the state after the first dispatch failure at time 1000. -/
def dbRetry1 : DB := handleDispatchFailure dbRetry 1000 "d1" runX taskX "E1"

/-- C3 scenario: the run row as re-claimed for the second dispatch. -/
def runX2 : TaskRun := (findTaskRun dbRetry1 "rX").getD (baseRun "rX" "X")

/-- C3 scenario: the state after the second dispatch failure at time 2000. -/
def dbRetry2 : DB := handleDispatchFailure dbRetry1 2000 "d2" runX2 taskX "E1"

/-- C4 counterexample state: predecessor A of D completed twice, the older
run with output p1 at time 1, the newer with output p2 at time 2. -/
def dbUpstreamDup : DB :=
  { emptyDB with
    tasks := [{ baseTask "A" with allowedNext := ["D"] }, baseTask "D"]
    pipelineRuns :=
      [{ joinPipelineRun with structureSnapshot := [("A", ["D"]), ("D", [])] }]
    taskRuns :=
      [{ baseRun "rA1" "A" with
          pipelineRunId := some "pr1", status := Status.completed,
          outputPath := some "p1", completedAt := some 1 },
       { baseRun "rA2" "A" with
          pipelineRunId := some "pr1", status := Status.completed,
          outputPath := some "p2", completedAt := some 2 }] }

/-- C5 counterexample state: task T capped at concurrency 1 with two eligible
pending runs. -/
def dbConc : DB :=
  { emptyDB with
    tasks := [{ baseTask "T" with concurrency := 1 }]
    taskRuns := [baseRun "r1" "T", { baseRun "r2" "T" with createdAt := 1 }] }

/-- C6 scenario: the pay task and one live idempotency cache entry for key
v1-o1 expiring at time 100. -/
def dbIdem : DB :=
  { emptyDB with
    tasks := [baseTask "pay"]
    idempotencyCache :=
      [{ key := "v1-o1"
         taskId := "pay"
         taskRunId := "trun_first"
         codeVersion := 1
         outputPath := "o_pay"
         outputSize := some 10
         assets := none
         expiresAt := 100 }] }

/-- C7 witness fixture: a register request with two distinct tasks. -/
def regReq : RegisterRequest :=
  { serviceId := "svc"
    version := "1.0.0"
    baseUrl := "http://worker:8080"
    tasks :=
      [{ id := "t1", allowedNext := some ["t2"], timeout := none, retries := some 2,
         retryBackoff := none, retryDelayMs := none, maxRetryDelayMs := none,
         heartbeatIntervalMs := none, concurrency := none, priority := none,
         idempotencyTTL := none, description := none },
       { id := "t2", allowedNext := none, timeout := none, retries := none,
         retryBackoff := none, retryDelayMs := none, maxRetryDelayMs := none,
         heartbeatIntervalMs := none, concurrency := none, priority := none,
         idempotencyTTL := none, description := none }] }

/-- C7 witness fixture: a concrete stand-in for the content digest. -/
def hashDemo (spec : TaskSpec) : String := "sha-" ++ spec.id

/-- C8 counterexample state: a single pending run. -/
def dbPendingOne : DB :=
  { emptyDB with tasks := [baseTask "T"], taskRuns := [baseRun "r1" "T"] }

/-- C8 witness state: a single running run. -/
def dbRunningOne : DB :=
  { emptyDB with
    tasks := [baseTask "T"]
    taskRuns := [{ baseRun "r1" "T" with status := Status.running, startedAt := some 1 }] }

/-- C9 witness state: one running run and one run already completed. -/
def dbHeartbeat : DB :=
  { emptyDB with
    tasks := [baseTask "T"]
    taskRuns :=
      [{ baseRun "r1" "T" with status := Status.running, startedAt := some 1 },
       { baseRun "r2" "T" with
          status := Status.completed, outputPath := some "o", completedAt := some 2 }] }

/-- C10 witness state: a pipeline whose own failure mode is continue, with a
single registered entry task. -/
def dbTrigger : DB :=
  { emptyDB with
    tasks := [baseTask "A"]
    pipelines :=
      [{ id := "pipe"
         name := "demo"
         entryTasks := ["A"]
         structureMap := [("A", [])]
         version := "1.0.0"
         failureMode := FailureMode.continueMode }] }

/-- A result extractor used by concrete witnesses: the payload of a
successful Except. -/
def exOk {α : Type} (fallback : α) (e : Except String α) : α :=
  match e with
  | Except.ok a => a
  | Except.error _ => fallback

/-- C10 witness computation: trigger the continue-mode pipeline without a
failureMode option. -/
def triggerW : Except String (PipelineRunInfo × DB) :=
  triggerPipeline (fun _ => true) dbTrigger 0 "p1" ["e1"]
    { pipelineId := "pipe", failureMode := none, priority := none }

/-- C10 witness computation: the successful trigger payload. -/
def triggerPairW : PipelineRunInfo × DB :=
  exOk ({ pipelineRunId := "", pipelineId := "", status := PStatus.running,
          inputPath := "", entryTaskIds := [], queuedTasks := [] }, emptyDB) triggerW

/-- C1 witness computation: queue the downstream tasks of C's completion in
the once-each diamond state. -/
def joinOkW : Except String (List String × DB) :=
  queueDownstreamTasks dbJoinOk 10 ["n1"] "rC1" none

/-- C1 witness computation: the successful downstream payload. -/
def joinOkPairW : List String × DB := exOk ([], emptyDB) joinOkW

section Helpers

variable {α β : Type}

/-- Pointwise relation between a list and its image under a map. -/
theorem forall₂_map_self (R : α → β → Prop) (u : α → β) (l : List α)
    (h : ∀ a ∈ l, R a (u a)) : List.Forall₂ R l (l.map u) := by
  induction l with
  | nil => exact List.Forall₂.nil
  | cons x xs ih =>
    exact List.Forall₂.cons (h x (List.mem_cons_self x xs))
      (ih fun a ha => h a (List.mem_cons_of_mem x ha))

/-- A list is pointwise related to itself when the relation is reflexive on
its members. -/
theorem forall₂_self_of (R : α → α → Prop) (l : List α) (h : ∀ a ∈ l, R a a) :
    List.Forall₂ R l l := by
  induction l with
  | nil => exact List.Forall₂.nil
  | cons x xs ih =>
    exact List.Forall₂.cons (h x (List.mem_cons_self x xs))
      (ih fun a ha => h a (List.mem_cons_of_mem x ha))

/-- find? commutes with a map that preserves the predicate. -/
theorem find?_map_pres (p : α → Bool) (u : α → α) (hp : ∀ a, p (u a) = p a) :
    ∀ l : List α, (l.map u).find? p = (l.find? p).map u := by
  intro l
  induction l with
  | nil => rfl
  | cons x xs ih =>
    simp only [List.map_cons, List.find?]
    rw [hp x]
    cases hx : p x with
    | true => rfl
    | false => simpa using ih

/-- find? over the map branch of a keyed upsert yields the new row when the
key occurs. -/
theorem find?_upsert_map_branch (key : α → String) (k : String) (x : α) (hx : key x = k) :
    ∀ l : List α, (l.any fun a => decide (key a = k)) = true →
      ((l.map fun a => if key a = k then x else a).find? fun a => decide (key a = k)) = some x := by
  intro l
  induction l with
  | nil => intro h; simp at h
  | cons y ys ih =>
    intro h
    simp only [List.map_cons, List.find?]
    by_cases hy : key y = k
    · have hsc : decide (key (if key y = k then x else y) = k) = true := by
        rw [if_pos hy]
        simp [hx]
      rw [hsc]
      have hsub : (if key y = k then x else y) = x := if_pos hy
      rw [hsub]
    · have hsc : decide (key (if key y = k then x else y) = k) = false := by
        rw [if_neg hy]
        simp [hy]
      rw [hsc]
      have hany : (ys.any fun a => decide (key a = k)) = true := by
        have hyf : decide (key y = k) = false := by simp [hy]
        simp only [List.any_cons, hyf, Bool.false_or] at h
        exact h
      exact ih hany

/-- find? over the append branch of a keyed upsert yields the new row when the
key does not occur. -/
theorem find?_upsert_append_branch (key : α → String) (k : String) (x : α) (hx : key x = k) :
    ∀ l : List α, (l.any fun a => decide (key a = k)) = false →
      ((l ++ [x]).find? fun a => decide (key a = k)) = some x := by
  intro l
  induction l with
  | nil =>
    intro _
    have hsc : decide (key x = k) = true := by simp [hx]
    show List.find? (fun a => decide (key a = k)) [x] = some x
    simp only [List.find?, hsc]
  | cons y ys ih =>
    intro h
    simp only [List.any_cons, Bool.or_eq_false_iff] at h
    simp only [List.cons_append, List.find?, h.1]
    exact ih h.2

/-- Looking up the upserted key after a keyed upsert yields the new row. -/
theorem find?_keyed_upsert_self (key : α → String) (k : String) (x : α) (hx : key x = k)
    (l : List α) :
    ((if l.any fun a => decide (key a = k) then l.map fun a => if key a = k then x else a
      else l ++ [x]).find? fun a => decide (key a = k)) = some x := by
  by_cases h : (l.any fun a => decide (key a = k)) = true
  · rw [if_pos h]
    exact find?_upsert_map_branch key k x hx l h
  · rw [if_neg h]
    exact find?_upsert_append_branch key k x hx l (Bool.eq_false_iff.mpr h)

/-- find? for a different key over the append branch of a keyed upsert. -/
theorem find?_other_append_branch (key : α → String) (k k' : String) (x : α)
    (hx : key x = k) (hkk : k' ≠ k) :
    ∀ l : List α,
      ((l ++ [x]).find? fun a => decide (key a = k')) = l.find? fun a => decide (key a = k') := by
  intro l
  induction l with
  | nil =>
    have hsc : decide (key x = k') = false := by
      simp only [decide_eq_false_iff_not]
      rw [hx]
      exact fun hc => hkk hc.symm
    show List.find? (fun a => decide (key a = k')) [x] =
      List.find? (fun a => decide (key a = k')) []
    simp only [List.find?, hsc]
  | cons y ys ih =>
    simp only [List.cons_append, List.find?]
    cases hy : decide (key y = k') with
    | true => rfl
    | false => exact ih

/-- Predicate preservation for the changed-key updater under a different
lookup key. -/
theorem pred_pres_other_key (key : α → String) (k k' : String) (x : α)
    (hx : key x = k) (hkk : k' ≠ k) (a : α) :
    decide (key (if key a = k then x else a) = k') = decide (key a = k') := by
  by_cases ha : key a = k
  · have hsub : (if key a = k then x else a) = x := if_pos ha
    rw [hsub]
    have h1 : decide (key x = k') = false := by
      simp only [decide_eq_false_iff_not]
      rw [hx]
      exact fun hc => hkk hc.symm
    have h2 : decide (key a = k') = false := by
      simp only [decide_eq_false_iff_not]
      rw [ha]
      exact fun hc => hkk hc.symm
    rw [h1, h2]
  · have hsub : (if key a = k then x else a) = a := if_neg ha
    rw [hsub]

/-- Looking up a different key after a keyed upsert is unchanged. -/
theorem find?_keyed_upsert_other (key : α → String) (k k' : String) (x : α)
    (hx : key x = k) (hkk : k' ≠ k) (l : List α) :
    ((if l.any fun a => decide (key a = k) then l.map fun a => if key a = k then x else a
      else l ++ [x]).find? fun a => decide (key a = k')) =
      l.find? fun a => decide (key a = k') := by
  by_cases h : (l.any fun a => decide (key a = k)) = true
  · rw [if_pos h]
    rw [find?_map_pres _ _ (pred_pres_other_key key k k' x hx hkk) l]
    cases hfind : l.find? fun a => decide (key a = k') with
    | none => rfl
    | some a =>
      have hpa := List.find?_some hfind
      have ha : key a ≠ k := by
        intro hc
        exact hkk (by rw [← of_decide_eq_true hpa]; exact hc)
      show some (if key a = k then x else a) = some a
      rw [if_neg ha]
  · rw [if_neg h]
    exact find?_other_append_branch key k k' x hx hkk l

/-- Mapping an update that only touches rows matched by q grows a filter count
by at most the number of matched rows. -/
theorem filter_length_map_le (p q : α → Bool) (u : α → α)
    (h : ∀ a, q a = false → u a = a) :
    ∀ l : List α, ((l.map u).filter p).length ≤ (l.filter p).length + (l.filter q).length := by
  intro l
  induction l with
  | nil => simp
  | cons x xs ih =>
    simp only [List.map_cons]
    cases hq : q x with
    | false =>
      rw [h x hq]
      have hfq : List.filter q (x :: xs) = List.filter q xs :=
        List.filter_cons_of_neg (by simp [hq])
      rw [hfq]
      cases hp : p x with
      | true =>
        have hf1 : List.filter p (x :: List.map u xs) = x :: List.filter p (List.map u xs) :=
          List.filter_cons_of_pos hp
        have hf2 : List.filter p (x :: xs) = x :: List.filter p xs :=
          List.filter_cons_of_pos hp
        rw [hf1, hf2]
        simp only [List.length_cons]
        omega
      | false =>
        have hf1 : List.filter p (x :: List.map u xs) = List.filter p (List.map u xs) :=
          List.filter_cons_of_neg (by simp [hp])
        have hf2 : List.filter p (x :: xs) = List.filter p xs :=
          List.filter_cons_of_neg (by simp [hp])
        rw [hf1, hf2]
        exact ih
    | true =>
      have hfq : List.filter q (x :: xs) = x :: List.filter q xs :=
        List.filter_cons_of_pos hq
      rw [hfq]
      cases hp : p (u x) with
      | true =>
        have hf1 : List.filter p (u x :: List.map u xs) = u x :: List.filter p (List.map u xs) :=
          List.filter_cons_of_pos hp
        rw [hf1]
        cases hp2 : p x with
        | true =>
          have hf2 : List.filter p (x :: xs) = x :: List.filter p xs :=
            List.filter_cons_of_pos hp2
          rw [hf2]
          simp only [List.length_cons]
          omega
        | false =>
          have hf2 : List.filter p (x :: xs) = List.filter p xs :=
            List.filter_cons_of_neg (by simp [hp2])
          rw [hf2]
          simp only [List.length_cons]
          omega
      | false =>
        have hf1 : List.filter p (u x :: List.map u xs) = List.filter p (List.map u xs) :=
          List.filter_cons_of_neg (by simp [hp])
        rw [hf1]
        cases hp2 : p x with
        | true =>
          have hf2 : List.filter p (x :: xs) = x :: List.filter p xs :=
            List.filter_cons_of_pos hp2
          rw [hf2]
          simp only [List.length_cons]
          omega
        | false =>
          have hf2 : List.filter p (x :: xs) = List.filter p xs :=
            List.filter_cons_of_neg (by simp [hp2])
          rw [hf2]
          simp only [List.length_cons]
          omega

end Helpers

/-- Membership through the priority-insert step. -/
theorem mem_insertByPri (a x : TaskRun) : ∀ l : List TaskRun,
    a ∈ insertByPri x l ↔ a = x ∨ a ∈ l := by
  intro l
  induction l with
  | nil => simp [insertByPri]
  | cons y ys ih =>
    simp only [insertByPri]
    by_cases h : priLE x y = true
    · rw [if_pos h]
      simp [List.mem_cons]
    · rw [if_neg h]
      simp only [List.mem_cons, ih]
      tauto

/-- Membership is preserved by the priority sort. -/
theorem mem_sortByPri (a : TaskRun) : ∀ l : List TaskRun, a ∈ sortByPri l ↔ a ∈ l := by
  intro l
  induction l with
  | nil => simp [sortByPri]
  | cons x xs ih =>
    simp only [sortByPri, mem_insertByPri, ih, List.mem_cons]

/-- A successful enqueue never touches the pipeline_runs table. -/
theorem enqueue_ok_pipelineRuns (db : DB) (now : Nat) (fid : String) (o : QueueTaskOptions)
    (q : QueuedTask) (db' : DB) (h : enqueue db now fid o = Except.ok (q, db')) :
    db'.pipelineRuns = db.pipelineRuns := by
  cases hft : findTask db o.taskId with
  | none => simp [enqueue, hft] at h
  | some task =>
    cases hkey : o.idempotencyKey with
    | none =>
      simp only [enqueue, hft, hkey, Except.ok.injEq, Prod.mk.injEq] at h
      obtain ⟨-, hdb⟩ := h
      rw [← hdb]
    | some key =>
      cases hc : checkIdempotency db now key with
      | none =>
        simp only [enqueue, hft, hkey, hc, Except.ok.injEq, Prod.mk.injEq] at h
        obtain ⟨-, hdb⟩ := h
        rw [← hdb]
      | some cached =>
        simp only [enqueue, hft, hkey, hc, Except.ok.injEq, Prod.mk.injEq] at h
        obtain ⟨-, hdb⟩ := h
        rw [← hdb]

/-- The shape of a successful enqueue without an idempotency key: exactly one
new pending row at attempt 1 is appended. -/
theorem enqueue_ok_no_key_shape (db : DB) (now : Nat) (fid : String) (o : QueueTaskOptions)
    (q : QueuedTask) (db' : DB) (hk : o.idempotencyKey = none)
    (h : enqueue db now fid o = Except.ok (q, db')) :
    ∃ task newRun, findTask db o.taskId = some task
      ∧ db' = { db with taskRuns := db.taskRuns ++ [newRun] }
      ∧ newRun.taskId = o.taskId ∧ newRun.pipelineRunId = o.pipelineRunId
      ∧ newRun.status = Status.pending ∧ newRun.attempt = 1 ∧ q.runId = newRun.id := by
  cases hft : findTask db o.taskId with
  | none => simp [enqueue, hft] at h
  | some task =>
    simp only [enqueue, hft, hk, Except.ok.injEq, Prod.mk.injEq] at h
    obtain ⟨hq, hdb⟩ := h
    refine ⟨task, _, rfl, hdb.symm, rfl, rfl, rfl, rfl, ?_⟩
    rw [← hq]

/-- The entry-task enqueue loop of triggerPipeline never touches the
pipeline_runs table. -/
theorem triggerEnqueueLoop_pipelineRuns (now : Nat) (prid : String) (pri : Option Int) :
    ∀ (ids fids : List String) (db : DB) (qs : List String) (db' : DB),
      triggerEnqueueLoop now prid pri ids fids db = Except.ok (qs, db') →
        db'.pipelineRuns = db.pipelineRuns := by
  intro ids
  induction ids with
  | nil =>
    intro fids db qs db' h
    simp only [triggerEnqueueLoop, Except.ok.injEq, Prod.mk.injEq] at h
    obtain ⟨-, hdb⟩ := h
    rw [← hdb]
  | cons taskId rest ih =>
    intro fids db qs db' h
    simp only [triggerEnqueueLoop] at h
    split at h
    · exact absurd h (by simp)
    · rename_i queuedTask db1 henq
      split at h
      · exact absurd h (by simp)
      · rename_i queued db2 hloop
        simp only [Except.ok.injEq, Prod.mk.injEq] at h
        obtain ⟨-, hdb⟩ := h
        rw [← hdb]
        rw [ih _ _ _ _ hloop]
        exact enqueue_ok_pipelineRuns _ _ _ _ _ _ henq

/-- C10: with no failureMode option, the created pipeline run stores
fail-fast; the written fallback to the pipeline's own failure_mode never
fires, because the run's failure mode equals the option's value defaulted to
fail-fast, independent of the pipeline row. -/
theorem trigger_failure_mode_default (validate : List String → Bool) (db : DB) (now : Nat)
    (runFreshId : String) (freshIds : List String) (o : TriggerOptions) (pipeline : Pipeline)
    (info : PipelineRunInfo) (db' : DB)
    (hp : findPipeline db o.pipelineId = some pipeline)
    (hok : triggerPipeline validate db now runFreshId freshIds o = Except.ok (info, db'))
    (hfresh : findPipelineRun db ("prun_" ++ runFreshId) = none) :
    (findPipelineRun db' ("prun_" ++ runFreshId)).map PipelineRun.failureMode
      = some (o.failureMode.getD FailureMode.failFast) := by
  cases hv : validate pipeline.entryTasks with
  | false => simp [triggerPipeline, hp, hv] at hok
  | true =>
    simp only [triggerPipeline, hp, hv, Bool.not_true, Bool.false_eq_true, if_false] at hok
    split at hok
    · exact absurd hok (by simp)
    · rename_i queued db2 hloop
      simp only [Except.ok.injEq, Prod.mk.injEq] at hok
      obtain ⟨-, hdb⟩ := hok
      have hpres := triggerEnqueueLoop_pipelineRuns _ _ _ _ _ _ _ _ hloop
      have hany : (db.pipelineRuns.any fun pr => decide (pr.id = "prun_" ++ runFreshId)) = false := by
        rw [Bool.eq_false_iff]
        intro hc
        obtain ⟨pr, hmem, hpr⟩ := List.any_eq_true.mp hc
        have := List.find?_eq_none.mp hfresh pr hmem
        exact this hpr
      unfold findPipelineRun
      rw [← hdb, hpres]
      rw [find?_upsert_append_branch PipelineRun.id ("prun_" ++ runFreshId) _ rfl _ hany]
      simp [insertedFailureMode, destructuredFailureMode]

/-- C10 witness: triggering the continue-mode pipeline with no failureMode
option stores fail-fast on the run, not the pipeline's continue mode. -/
theorem trigger_failure_mode_default_witness :
    (findPipelineRun triggerPairW.2 ("prun_" ++ "p1")).map PipelineRun.failureMode
        = some FailureMode.failFast
      ∧ (findPipeline dbTrigger "pipe").map Pipeline.failureMode
        = some FailureMode.continueMode := by
  constructor
  · exact trigger_failure_mode_default (fun _ => true) dbTrigger 0 "p1" ["e1"]
      { pipelineId := "pipe", failureMode := none, priority := none }
      ((dbTrigger.pipelines).headD
        { id := "", name := "", entryTasks := [], structureMap := [],
          version := "", failureMode := FailureMode.failFast })
      triggerPairW.1 triggerPairW.2 (by rfl) (by rfl) (by rfl)
  · rfl

/-- C6: with the task present, an enqueue carrying an idempotencyKey that has
a live cache entry returns the cached run id, status completed and the cached
output path as inputPath, leaving the whole database (in particular
task_runs) unchanged; without a live entry a fresh pending run at attempt 1
is appended. -/
theorem enqueue_idempotency_fast_path (db : DB) (now : Nat) (freshId : String)
    (o : QueueTaskOptions) (task : TaskDef)
    (htask : findTask db o.taskId = some task) :
    (∀ key cached, o.idempotencyKey = some key → checkIdempotency db now key = some cached →
        enqueue db now freshId o =
          Except.ok ({ runId := cached.taskRunId, taskId := o.taskId,
                       status := "completed", inputPath := cached.outputPath }, db))
      ∧ ((match o.idempotencyKey with
          | none => True
          | some key => checkIdempotency db now key = none) →
          ∃ q db', enqueue db now freshId o = Except.ok (q, db') ∧ q.status = "pending"
            ∧ ∃ newRun, db'.taskRuns = db.taskRuns ++ [newRun]
                ∧ newRun.status = Status.pending ∧ newRun.attempt = 1) := by
  constructor
  · intro key cached hkey hc
    simp only [enqueue, htask, hkey, hc]
  · intro hmiss
    cases hkey : o.idempotencyKey with
    | none =>
      simp only [enqueue, htask, hkey]
      exact ⟨_, _, rfl, rfl, _, rfl, rfl, rfl⟩
    | some key =>
      rw [hkey] at hmiss
      simp only [enqueue, htask, hkey, hmiss]
      exact ⟨_, _, rfl, rfl, _, rfl, rfl, rfl⟩

/-- C6 witness: in the concrete cache state, the enqueue at time 50 hits the
live entry for key v1-o1 and returns the cached triple with the database
unchanged; the same enqueue at time 150 (entry expired) appends one fresh
pending run at attempt 1. -/
theorem enqueue_idempotency_fast_path_witness :
    enqueue dbIdem 50 "n1"
        { taskId := "pay", priority := none, pipelineRunId := none, upstreamRefs := none,
          idempotencyKey := some "v1-o1", scheduledFor := none } =
        Except.ok ({ runId := "trun_first", taskId := "pay",
                     status := "completed", inputPath := "o_pay" }, dbIdem)
      ∧ ∃ q db', enqueue dbIdem 150 "n1"
            { taskId := "pay", priority := none, pipelineRunId := none, upstreamRefs := none,
              idempotencyKey := some "v1-o1", scheduledFor := none } = Except.ok (q, db')
          ∧ q.status = "pending"
          ∧ ∃ newRun, db'.taskRuns = dbIdem.taskRuns ++ [newRun]
              ∧ newRun.status = Status.pending ∧ newRun.attempt = 1 := by
  constructor
  · exact (enqueue_idempotency_fast_path dbIdem 50 "n1" _ (baseTask "pay") (by rfl)).1
      "v1-o1" { taskRunId := "trun_first", outputPath := "o_pay",
                outputSize := some 10, assets := none } rfl (by rfl)
  · exact (enqueue_idempotency_fast_path dbIdem 150 "n1" _ (baseTask "pay") (by rfl)).2 (by rfl)

/-- C4: evaluated at a pipeline run in which predecessor A completed twice,
buildUpstreamRefs returns the oldest completion's output p1 for A, while the
most recent completed run of A has output p2 — the DESC ordering combined
with unconditional overwriting makes the earliest completion win. -/
theorem upstreamRefs_oldest_completion_wins :
    buildUpstreamRefs dbUpstreamDup "D" "pr1" = [("A", { outputPath := "p1", assets := [] })]
      ∧ mostRecentCompletedOutputPath dbUpstreamDup "pr1" "A" = some "p2"
      ∧ ((buildUpstreamRefs dbUpstreamDup "D" "pr1").find? fun p => decide (p.1 = "A")).map
          (fun p => p.2.outputPath) ≠ mostRecentCompletedOutputPath dbUpstreamDup "pr1" "A" := by
  refine ⟨by decide, by decide, by decide⟩

/-- C3 (amended): with maxRetries 2, exponential backoff, base delay 100 and
cap 10000, the first dispatch failure at time 1000 schedules attempt 2 at
1100 (pending, one previous-attempt entry); the second failure leads to no
third attempt: the run is marked failed with the final error on the row, the
DLQ gains one entry, and previousAttempts holds exactly the one entry for
attempt 1. -/
theorem retry_exhaustion_after_two_attempts :
    ((findTaskRun dbRetry1 "rX").map fun r =>
        (r.status, r.attempt, r.scheduledFor, r.previousAttempts.length))
      = some (Status.pending, 2, some 1100, 1)
      ∧ ((findTaskRun dbRetry2 "rX").map fun r =>
          (r.status, r.attempt, r.error, r.errorCode, r.previousAttempts.length))
        = some (Status.failed, 2, some "E1", some "DISPATCH_FAILED", 1)
      ∧ dbRetry2.dlq.length = 1
      ∧ ((dbRetry2.dlq.headD
          { id := "", taskRunId := "", taskId := "", pipelineRunId := none, codeVersion := 0,
            codeHash := "", error := "", attempts := 0, inputPath := "", failedAt := 0 }).taskRunId
          = "rX") := by
  refine ⟨by decide, by decide, by decide, by decide⟩

/-- C3 counterexample: the claim predicts a third attempt scheduled at
now plus 200 after the second failure and two previousAttempts entries at the
end; instead the code leaves the run failed at attempt 2 with a single
previous-attempt entry and no scheduled retry beyond the first. -/
theorem retry_third_attempt_counterexample :
    ((findTaskRun dbRetry2 "rX").map TaskRun.status) = some Status.failed
      ∧ ((findTaskRun dbRetry2 "rX").map TaskRun.attempt) ≠ some 3
      ∧ ((findTaskRun dbRetry2 "rX").map fun r => r.previousAttempts.length) ≠ some 2
      ∧ (scheduleRetry dbRetry1 2000
          { runId := "rX", taskId := "X", attempt := 2, maxRetries := 2,
            retryBackoff := RetryBackoff.exponential, retryDelayMs := 100,
            maxRetryDelayMs := 10000, error := "E1", errorCode := none }).1 = false := by
  refine ⟨by decide, by decide, by decide, by decide⟩

/-- C8 (amended): the status UPDATEs of markRunning, markCompleted and
markFailed carry no status guard in their SQL, but when the operations are
invoked under the orchestrator's call discipline — markRunning only on runs
claimed while pending, markCompleted and markFailed only on running runs,
scheduleRetry only on a failed or timed-out run at its current attempt — every
row either stays unchanged or makes one of the claimed transitions, the retry
transition incrementing attempt and clearing the error fields; the heartbeat
timeout carries its running-guard in its own SQL and needs no discipline. -/
theorem status_transitions_under_call_discipline (db : DB) (now : Nat) (op : QueueOp)
    (hg : opGuard db op) :
    List.Forall₂ opAllowedStep db.taskRuns (applyOp db now op).taskRuns := by
  cases op with
  | opMarkRunning runId =>
    apply forall₂_map_self
    intro r hr
    by_cases hid : r.id = runId
    · rw [if_pos hid]
      exact Or.inr (Or.inl ⟨hg r hr hid, Or.inl rfl⟩)
    · rw [if_neg hid]
      exact Or.inl rfl
  | opMarkCompleted runId outputPath outputSize assets logsPath =>
    apply forall₂_map_self
    intro r hr
    by_cases hid : r.id = runId
    · rw [if_pos hid]
      exact Or.inr (Or.inr (Or.inl ⟨hg r hr hid, Or.inl rfl⟩))
    · rw [if_neg hid]
      exact Or.inl rfl
  | opMarkFailed runId err errorCode =>
    apply forall₂_map_self
    intro r hr
    by_cases hid : r.id = runId
    · rw [if_pos hid]
      exact Or.inr (Or.inr (Or.inl ⟨hg r hr hid, Or.inr (Or.inl rfl)⟩))
    · rw [if_neg hid]
      exact Or.inl rfl
  | opScheduleRetry o =>
    show List.Forall₂ opAllowedStep db.taskRuns ((scheduleRetry db now o).2).taskRuns
    by_cases hmax : o.maxRetries ≤ o.attempt
    · rw [scheduleRetry, if_pos hmax]
      exact forall₂_self_of _ _ fun r _ => Or.inl rfl
    · rw [scheduleRetry, if_neg hmax]
      apply forall₂_map_self
      intro r hr
      by_cases hid : r.id = o.runId
      · rw [if_pos hid]
        obtain ⟨hst, hat⟩ := hg r hr hid
        exact Or.inr (Or.inr (Or.inr ⟨hst, rfl, by rw [hat], rfl, rfl⟩))
      · rw [if_neg hid]
        exact Or.inl rfl
  | opHandleTimeout runId =>
    apply forall₂_map_self
    intro r _
    by_cases hc : r.id = runId ∧ r.status = Status.running
    · rw [if_pos hc]
      exact Or.inr (Or.inr (Or.inl ⟨hc.2, Or.inr (Or.inr rfl)⟩))
    · rw [if_neg hc]
      exact Or.inl rfl

/-- C8 witness: under the discipline, completing the single running run of
the concrete state only performs allowed transitions. -/
theorem status_transitions_under_call_discipline_witness :
    List.Forall₂ opAllowedStep dbRunningOne.taskRuns
      (applyOp dbRunningOne 9 (QueueOp.opMarkCompleted "r1" "o" none none none)).taskRuns := by
  apply status_transitions_under_call_discipline
  show ∀ r ∈ dbRunningOne.taskRuns, r.id = "r1" → r.status = Status.running
  decide

/-- C8 counterexample: the operations themselves are not guarded — applying
markCompleted to a run that is still pending moves it straight from pending
to completed, a transition the claimed monotonic progression forbids. -/
theorem markCompleted_unguarded_counterexample :
    (findTaskRun dbPendingOne "r1").map TaskRun.status = some Status.pending
      ∧ (findTaskRun
          (applyOp dbPendingOne 5 (QueueOp.opMarkCompleted "r1" "o" none none none))
          "r1").map TaskRun.status = some Status.completed
      ∧ claimAllowedStatus Status.pending Status.completed = false := by
  refine ⟨by decide, by decide, by decide⟩

/-- C2 (amended): under fail-fast, handleTaskFailure cancels exactly the
pending task runs of the failed run's pipeline run — each such row becomes
cancelled with error 'Pipeline failed in fail-fast mode' and a completion
time, every other row is untouched — and every pipeline-run row with that id
is marked failed; afterwards no pending run remains in that pipeline run. -/
theorem failFast_cancels_pending_marks_failed (db : DB) (now : Nat) (taskRunId : String)
    (tr : TaskRun) (prid : String) (pr : PipelineRun)
    (h1 : findTaskRun db taskRunId = some tr)
    (h2 : tr.pipelineRunId = some prid)
    (h3 : findPipelineRun db prid = some pr)
    (h4 : pr.failureMode = FailureMode.failFast) :
    List.Forall₂
        (fun r r' =>
          if r.pipelineRunId = some prid ∧ r.status = Status.pending then
            r' = { r with
                    status := Status.cancelled
                    error := some "Pipeline failed in fail-fast mode"
                    completedAt := some now }
          else r' = r)
        db.taskRuns (handleTaskFailure db now taskRunId).taskRuns
      ∧ (∀ p ∈ (handleTaskFailure db now taskRunId).pipelineRuns,
          p.id = prid → p.status = PStatus.failed)
      ∧ ((handleTaskFailure db now taskRunId).taskRuns.filter fun r =>
          decide (r.pipelineRunId = some prid) && decide (r.status = Status.pending)).length = 0 := by
  have hred : handleTaskFailure db now taskRunId =
      { db with
        taskRuns := db.taskRuns.map fun r =>
          if r.pipelineRunId = some prid ∧ r.status = Status.pending then
            { r with
              status := Status.cancelled
              error := some "Pipeline failed in fail-fast mode"
              completedAt := some now }
          else r
        pipelineRuns := db.pipelineRuns.map fun p =>
          if p.id = prid then { p with status := PStatus.failed, completedAt := some now }
          else p } := by
    simp only [handleTaskFailure, h1, h2, h3, h4, if_pos]
  rw [hred]
  refine ⟨?_, ?_, ?_⟩
  · apply forall₂_map_self
    intro r _
    by_cases hc : r.pipelineRunId = some prid ∧ r.status = Status.pending
    · rw [if_pos hc, if_pos hc]
    · rw [if_neg hc, if_neg hc]
  · intro p hp hpid
    obtain ⟨q, hq, hqp⟩ := List.mem_map.mp hp
    by_cases hqid : q.id = prid
    · rw [if_pos hqid] at hqp
      rw [← hqp]
    · rw [if_neg hqid] at hqp
      rw [← hqp] at hpid
      exact absurd hpid hqid
  · rw [List.length_eq_zero]
    rw [List.filter_eq_nil_iff]
    intro r hr
    obtain ⟨q, hq, hqr⟩ := List.mem_map.mp hr
    by_cases hc : q.pipelineRunId = some prid ∧ q.status = Status.pending
    · rw [if_pos hc] at hqr
      rw [← hqr]
      simp
    · rw [if_neg hc] at hqr
      rw [← hqr]
      simp only [Bool.and_eq_true, decide_eq_true_eq]
      intro hcontra
      exact hc hcontra

/-- C2 witness: in the concrete fail-fast state, failing rB cancels the
pending run rC, leaves the running rA and failed rB untouched, and marks the
pipeline run failed. -/
theorem failFast_cancels_pending_marks_failed_witness :
    List.Forall₂
        (fun r r' =>
          if r.pipelineRunId = some "pr1" ∧ r.status = Status.pending then
            r' = { r with
                    status := Status.cancelled
                    error := some "Pipeline failed in fail-fast mode"
                    completedAt := some (4 : Nat) }
          else r' = r)
        dbFailFast.taskRuns (handleTaskFailure dbFailFast 4 "rB").taskRuns
      ∧ (∀ p ∈ (handleTaskFailure dbFailFast 4 "rB").pipelineRuns,
          p.id = "pr1" → p.status = PStatus.failed)
      ∧ ((handleTaskFailure dbFailFast 4 "rB").taskRuns.filter fun r =>
          decide (r.pipelineRunId = some "pr1") && decide (r.status = Status.pending)).length = 0 :=
  failFast_cancels_pending_marks_failed dbFailFast 4 "rB"
    { baseRun "rB" "B" with
        pipelineRunId := some "pr1", status := Status.failed,
        error := some "boom", completedAt := some 3 }
    "pr1"
    { joinPipelineRun with
        structureSnapshot := [("A", ["D"]), ("B", []), ("C", []), ("D", [])] }
    (by rfl) (by rfl) (by rfl) (by rfl)

/-- C2 counterexample: after the fail-fast cancellation already marked the
pipeline run failed, the still-running sibling A completes and
queueDownstreamTasks — which never consults the pipeline run's status —
still enqueues A's downstream task D as a fresh pending run in the failed
pipeline run, contradicting the claim that no such downstream task is ever
enqueued. -/
theorem failFast_downstream_still_enqueued_counterexample :
    (findPipelineRun dbAfterFailFast "pr1").map PipelineRun.status = some PStatus.failed
      ∧ (queueDownstreamTasks dbAfterFailFast 5 ["n1"] "rA" none).map (fun p => p.1)
        = Except.ok ["trun_n1"]
      ∧ (queueDownstreamTasks dbAfterFailFast 5 ["n1"] "rA" none).map
          (fun p => (findTaskRun p.2 "trun_n1").map fun r => (r.taskId, r.status, r.pipelineRunId))
        = Except.ok (some ("D", Status.pending, some "pr1")) := by
  refine ⟨by decide, by rfl, by rfl⟩

/-- C5 (amended): every run getNext returns satisfies the concurrency
predicate — its task's running count at selection time is below the cap or
the cap is 0 (unlimited) — and marking one returned run running keeps the
running count of a unique-id row within the cap; but a single batch may
contain several pending runs of the same task, all selected against the same
count, so marking a whole batch running can exceed the cap. -/
theorem getNext_concurrency_gate (db : DB) (now limit : Nat) (r : TaskRun) (t : TaskDef)
    (now2 : Nat)
    (hr : r ∈ getNext db now limit)
    (ht : findTask db r.taskId = some t)
    (hocc : (db.taskRuns.filter fun x => decide (x.id = r.id)).length ≤ 1) :
    (t.concurrency = 0 ∨ runningCount db r.taskId < t.concurrency)
      ∧ (t.concurrency ≠ 0 → runningCount (markRunning db now2 r.id) r.taskId ≤ t.concurrency) := by
  have hmem : r ∈ db.taskRuns.filter (eligiblePending db now) := by
    have h1 := List.take_subset limit (sortByPri (db.taskRuns.filter (eligiblePending db now))) hr
    exact (mem_sortByPri r _).mp h1
  have hel : eligiblePending db now r = true := List.of_mem_filter hmem
  have hgate : (t.concurrency = 0 ∨ runningCount db r.taskId < t.concurrency) := by
    simp only [eligiblePending, Bool.and_eq_true] at hel
    obtain ⟨-, h3⟩ := hel
    rw [ht] at h3
    simp only [Bool.or_eq_true, decide_eq_true_eq] at h3
    exact h3
  refine ⟨hgate, ?_⟩
  intro hc0
  have hlt : runningCount db r.taskId < t.concurrency := hgate.resolve_left hc0
  have hb := filter_length_map_le
    (fun x => decide (x.taskId = r.taskId) && decide (x.status = Status.running))
    (fun x => decide (x.id = r.id))
    (fun x => if x.id = r.id then { x with status := Status.running, startedAt := some now2 } else x)
    (fun a ha => by
      have ha' : ¬ a.id = r.id := by simpa using ha
      simp [ha'])
    db.taskRuns
  simp only [runningCount] at hlt ⊢
  simp only [markRunning]
  omega

/-- C5 witness: in the concrete capped state, the claimed run r1 passes the
selection gate and marking it alone running respects the cap of 1. -/
theorem getNext_concurrency_gate_witness :
    (({ baseTask "T" with concurrency := 1 } : TaskDef).concurrency = 0
        ∨ runningCount dbConc "T" < ({ baseTask "T" with concurrency := 1 } : TaskDef).concurrency)
      ∧ (({ baseTask "T" with concurrency := 1 } : TaskDef).concurrency ≠ 0 →
          runningCount (markRunning dbConc 5 "r1") "T"
            ≤ ({ baseTask "T" with concurrency := 1 } : TaskDef).concurrency) :=
  getNext_concurrency_gate dbConc 0 2 (baseRun "r1" "T")
    { baseTask "T" with concurrency := 1 } 5 (by decide) (by rfl) (by decide)

/-- C5 counterexample: task T has concurrency 1 with two eligible pending
runs; one getNext batch returns both (each checked against the same running
count of 0), and marking both running puts two runs of T in status running,
exceeding the cap — so the claim that the cap is never exceeded in a
single-orchestrator execution fails. -/
theorem concurrency_cap_batch_counterexample :
    (getNext dbConc 0 2).map TaskRun.id = ["r1", "r2"]
      ∧ (findTask dbConc "T").map TaskDef.concurrency = some 1
      ∧ runningCount (markRunning (markRunning dbConc 5 "r1") 6 "r2") "T" = 2 := by
  refine ⟨by decide, by decide, by decide⟩

/-- C9: startTracking stores a tracker whose armed timeout is exactly
2 x heartbeatIntervalMs, and when the timer fires while the run is still
tracked, handleTimeout sets status timeout, error 'Task heartbeat timeout',
error_code 'TIMEOUT' and completed_at only on a row that is still running;
every row in any other state is left unchanged. -/
theorem heartbeat_timeout_two_intervals_guarded (trackers : List Tracker) (db : DB)
    (now : Nat) (runId taskId : String) (interval : Nat) :
    ((startTracking trackers runId taskId interval).find? fun t => decide (t.runId = runId))
        = some { runId := runId, taskId := taskId, timeoutMs := interval * 2 }
      ∧ ((trackers.find? fun t => decide (t.runId = runId)).isSome = true →
          List.Forall₂
            (fun r r' =>
              if r.id = runId ∧ r.status = Status.running then
                r' = { r with
                        status := Status.timeout
                        error := some "Task heartbeat timeout"
                        errorCode := some "TIMEOUT"
                        completedAt := some now }
              else r' = r)
            db.taskRuns ((handleTimeout trackers db now runId).2).taskRuns) := by
  constructor
  · exact find?_keyed_upsert_self Tracker.runId runId
      { runId := runId, taskId := taskId, timeoutMs := interval * 2 } rfl trackers
  · intro hpresent
    cases hf : trackers.find? fun t => decide (t.runId = runId) with
    | none => rw [hf] at hpresent; simp at hpresent
    | some tr =>
      simp only [handleTimeout, hf]
      apply forall₂_map_self
      intro r _
      by_cases hc : r.id = runId ∧ r.status = Status.running
      · rw [if_pos hc, if_pos hc]
      · rw [if_neg hc, if_neg hc]

/-- C9 witness: the tracker armed for interval 60000 carries timeout 120000,
and firing it on the concrete state times out the running r1 while leaving
the completed r2 untouched. -/
theorem heartbeat_timeout_two_intervals_guarded_witness :
    ((startTracking [] "r1" "T" 60000).find? fun t => decide (t.runId = "r1"))
        = some { runId := "r1", taskId := "T", timeoutMs := 120000 }
      ∧ List.Forall₂
          (fun r r' =>
            if r.id = "r1" ∧ r.status = Status.running then
              r' = { r with
                      status := Status.timeout
                      error := some "Task heartbeat timeout"
                      errorCode := some "TIMEOUT"
                      completedAt := some (7 : Nat) }
            else r' = r)
          dbHeartbeat.taskRuns
          ((handleTimeout (startTracking [] "r1" "T" 60000) dbHeartbeat 7 "r1").2).taskRuns := by
  constructor
  · exact (heartbeat_timeout_two_intervals_guarded [] emptyDB 0 "r1" "T" 60000).1
  · exact (heartbeat_timeout_two_intervals_guarded (startTracking [] "r1" "T" 60000)
      dbHeartbeat 7 "r1" "T" 60000).2 (by decide)

/-- Appending a non-completed task run does not change join readiness: the
readiness count only looks at completed rows. -/
theorem isJoinTaskReady_append (db : DB) (r : TaskRun) (tid prid : String)
    (h : r.status ≠ Status.completed) :
    isJoinTaskReady { db with taskRuns := db.taskRuns ++ [r] } tid prid
      = isJoinTaskReady db tid prid := by
  unfold isJoinTaskReady
  show (match findPipelineRun db prid with
    | none => false
    | some pr => _) = _
  cases hpr : findPipelineRun db prid with
  | none => rfl
  | some pr =>
    simp only []
    have hfil :
        ((db.taskRuns ++ [r]).filter fun x =>
            decide (x.pipelineRunId = some prid)
              && decide (x.taskId ∈ predecessorsOf pr.structureSnapshot tid)
              && decide (x.status = Status.completed))
          = db.taskRuns.filter fun x =>
            decide (x.pipelineRunId = some prid)
              && decide (x.taskId ∈ predecessorsOf pr.structureSnapshot tid)
              && decide (x.status = Status.completed) := by
      rw [List.filter_append]
      have : ([r].filter fun x =>
          decide (x.pipelineRunId = some prid)
            && decide (x.taskId ∈ predecessorsOf pr.structureSnapshot tid)
            && decide (x.status = Status.completed)) = [] := by
        simp [h]
      rw [this, List.append_nil]
    rw [hfil]

/-- Appending one task run changes the per-pipeline run count of a task by
one exactly when the appended row belongs to that task and pipeline run. -/
theorem runCountIn_append (db : DB) (r : TaskRun) (tid prid : String) :
    runCountIn { db with taskRuns := db.taskRuns ++ [r] } tid prid
      = runCountIn db tid prid
        + (if r.taskId = tid ∧ r.pipelineRunId = some prid then 1 else 0) := by
  unfold runCountIn
  show ((db.taskRuns ++ [r]).filter _).length = _
  rw [List.filter_append, List.length_append]
  congr 1
  by_cases hc : r.taskId = tid ∧ r.pipelineRunId = some prid
  · rw [if_pos hc]
    simp [hc.1, hc.2]
  · rw [if_neg hc]
    have : ([r].filter fun x =>
        decide (x.taskId = tid) && decide (x.pipelineRunId = some prid)) = [] := by
      by_cases h1 : r.taskId = tid
      · have h2 : ¬ r.pipelineRunId = some prid := fun h2 => hc ⟨h1, h2⟩
        simp [h2]
      · simp [h1]
    rw [this]
    rfl

/-- The downstream loop leaves the run count of any task id not in the
processed list unchanged. -/
theorem queueDownstreamLoop_count_not_mem (now : Nat) (prid : String) (pri : Int) :
    ∀ (ids fids : List String) (db : DB) (qs : List String) (db' : DB),
      queueDownstreamLoop now prid pri ids fids db = Except.ok (qs, db') →
        ∀ tid, tid ∉ ids → runCountIn db' tid prid = runCountIn db tid prid := by
  intro ids
  induction ids with
  | nil =>
    intro fids db qs db' h tid _
    simp only [queueDownstreamLoop, Except.ok.injEq, Prod.mk.injEq] at h
    rw [← h.2]
  | cons id rest ih =>
    intro fids db qs db' h tid htid
    have hne : tid ≠ id := fun hc => htid (hc ▸ List.mem_cons_self id rest)
    have hnr : tid ∉ rest := fun hc => htid (List.mem_cons_of_mem id hc)
    simp only [queueDownstreamLoop] at h
    split at h
    · split at h
      · exact absurd h (by simp)
      · rename_i queuedTask db1 henq
        split at h
        · exact absurd h (by simp)
        · rename_i queued2 db2 hloop
          simp only [Except.ok.injEq, Prod.mk.injEq] at h
          obtain ⟨-, hdb⟩ := h
          rw [← hdb]
          rw [ih _ _ _ _ hloop tid hnr]
          obtain ⟨task, newRun, -, hdb1, hrtask, -, -, -, -⟩ :=
            enqueue_ok_no_key_shape _ _ _ _ _ _ rfl henq
          rw [hdb1, runCountIn_append]
          rw [if_neg (by rw [hrtask]; exact fun hc => hne hc.1.symm)]
          exact Nat.add_zero _
    · exact ih _ _ _ _ h tid hnr

/-- The downstream loop adds exactly one run for each processed task id that
was join-ready in the entry state, and none for the rest: enqueued rows are
pending, so readiness and counts of later ids are unaffected by earlier
enqueues. -/
theorem queueDownstreamLoop_count_mem (now : Nat) (prid : String) (pri : Int) :
    ∀ (ids fids : List String) (db : DB) (qs : List String) (db' : DB),
      queueDownstreamLoop now prid pri ids fids db = Except.ok (qs, db') →
        ids.Nodup → ∀ tid ∈ ids,
          runCountIn db' tid prid
            = runCountIn db tid prid + (if isJoinTaskReady db tid prid then 1 else 0) := by
  intro ids
  induction ids with
  | nil =>
    intro fids db qs db' _ _ tid htid
    exact absurd htid (List.not_mem_nil tid)
  | cons id rest ih =>
    intro fids db qs db' h hnd tid htid
    obtain ⟨hnotin, hndr⟩ := List.nodup_cons.mp hnd
    simp only [queueDownstreamLoop] at h
    split at h
    · rename_i hready
      split at h
      · exact absurd h (by simp)
      · rename_i queuedTask db1 henq
        split at h
        · exact absurd h (by simp)
        · rename_i queued2 db2 hloop
          simp only [Except.ok.injEq, Prod.mk.injEq] at h
          obtain ⟨-, hdb⟩ := h
          rw [← hdb]
          obtain ⟨task, newRun, -, hdb1, hrtask, hrpr, hrstatus, -, -⟩ :=
            enqueue_ok_no_key_shape _ _ _ _ _ _ rfl henq
          rcases List.mem_cons.mp htid with heq | hmr
          · rw [queueDownstreamLoop_count_not_mem now prid pri rest _ _ _ _ hloop tid
              (heq ▸ hnotin)]
            rw [hdb1, runCountIn_append]
            rw [if_pos ⟨by rw [hrtask, heq], hrpr.trans rfl⟩]
            rw [heq, if_pos hready]
          · have hne : tid ≠ id := fun hc => hnotin (hc ▸ hmr)
            rw [ih _ _ _ _ hloop hndr tid hmr]
            have hcount : runCountIn db1 tid prid = runCountIn db tid prid := by
              rw [hdb1, runCountIn_append]
              rw [if_neg (by rw [hrtask]; exact fun hc => hne hc.1.symm)]
              exact Nat.add_zero _
            have hready2 : isJoinTaskReady db1 tid prid = isJoinTaskReady db tid prid := by
              rw [hdb1]
              exact isJoinTaskReady_append db newRun tid prid
                (by rw [hrstatus]; exact fun hc => Status.noConfusion hc)
            rw [hcount, hready2]
    · rename_i hready
      rcases List.mem_cons.mp htid with heq | hmr
      · rw [queueDownstreamLoop_count_not_mem now prid pri rest _ _ _ _ h tid (heq ▸ hnotin)]
        have : isJoinTaskReady db tid prid = false := by
          rw [heq]
          exact Bool.eq_false_iff.mpr hready
        rw [this, if_neg (by simp)]
        exact (Nat.add_zero _).symm
      · exact ih _ _ _ _ h hndr tid hmr

/-- C1 (amended): with no programmatic routing, queueDownstreamTasks enqueues
one run of a downstream task exactly when the source's readiness check
passes: for a task with two or more predecessors in the structure snapshot,
that check compares the TOTAL number of completed task-run rows whose task is
any predecessor against the number of predecessors — a row-count equality,
not a per-distinct-predecessor condition. -/
theorem joinReadiness_rowCount_gate (db : DB) (now : Nat) (fids : List String)
    (runId : String) (tr : TaskRun) (prid : String) (task : TaskDef)
    (queued : List String) (db' : DB) (tid : String)
    (h1 : findTaskRun db runId = some tr)
    (h2 : tr.pipelineRunId = some prid)
    (h3 : findTask db tr.taskId = some task)
    (h4 : task.allowedNext.Nodup)
    (h5 : queueDownstreamTasks db now fids runId none = Except.ok (queued, db'))
    (h6 : tid ∈ task.allowedNext) :
    runCountIn db' tid prid
      = runCountIn db tid prid + (if isJoinTaskReady db tid prid then 1 else 0) := by
  have hne : task.allowedNext.isEmpty = false := by
    cases hl : task.allowedNext with
    | nil => rw [hl] at h6; exact absurd h6 (List.not_mem_nil tid)
    | cons a l => rfl
  simp only [queueDownstreamTasks, h1, h2, h3, hne, Bool.false_eq_true, if_false] at h5
  exact queueDownstreamLoop_count_mem now prid tr.priority task.allowedNext fids db
    queued db' h5 h4 tid h6

/-- C1 witness: in the diamond where B and C each completed once, completing
C enqueues the join task D exactly once (readiness holds with two completed
rows for two predecessors). -/
theorem joinReadiness_rowCount_gate_witness :
    runCountIn joinOkPairW.2 "D" "pr1"
      = runCountIn dbJoinOk "D" "pr1"
        + (if isJoinTaskReady dbJoinOk "D" "pr1" then 1 else 0) :=
  joinReadiness_rowCount_gate dbJoinOk 10 ["n1"] "rC1"
    { baseRun "rC1" "C" with
        pipelineRunId := some "pr1", status := Status.completed,
        outputPath := some "oc", completedAt := some 2 }
    "pr1" { baseTask "C" with allowedNext := ["D"] }
    joinOkPairW.1 joinOkPairW.2 "D"
    (by rfl) (by rfl) (by rfl) (by decide) (by rfl) (by decide)

/-- C1 counterexample: in the diamond A to (B, C) to D, predecessor B
completed twice and C never completed; the total row count (2) equals the
predecessor count (2), so the code reports the join ready and actually
enqueues D, even though predecessor C has no completed task run — the claim
that D is enqueued only when every predecessor has a completed run fails. -/
theorem joinReadiness_perPredecessor_counterexample :
    isJoinTaskReady dbJoinDup "D" "pr1" = true
      ∧ everyPredecessorHasCompletedRun dbJoinDup "D" "pr1" = false
      ∧ (queueDownstreamTasks dbJoinDup 10 ["n1"] "rB2" none).map
          (fun p => runCountIn p.2 "D" "pr1") = Except.ok 1
      ∧ runCountIn dbJoinDup "D" "pr1" = 0 := by
  refine ⟨by decide, by decide, by rfl, by decide⟩

/-- The tasks-table upsert written as a single list expression. -/
theorem upsertTaskRow_tasks (db : DB) (row : TaskDef) :
    (upsertTaskRow db row).tasks
      = if db.tasks.any fun t => decide (t.id = row.id)
        then db.tasks.map fun t => if t.id = row.id then row else t
        else db.tasks ++ [row] := by
  unfold upsertTaskRow
  split
  · rfl
  · rfl

/-- The tasks-table upsert leaves task_code_history untouched. -/
theorem upsertTaskRow_history (db : DB) (row : TaskDef) :
    (upsertTaskRow db row).taskCodeHistory = db.taskCodeHistory := by
  unfold upsertTaskRow
  split
  · rfl
  · rfl

/-- The tasks-table upsert leaves services untouched. -/
theorem upsertTaskRow_services (db : DB) (row : TaskDef) :
    (upsertTaskRow db row).services = db.services := by
  unfold upsertTaskRow
  split
  · rfl
  · rfl

/-- The services-table upsert leaves the tasks table untouched. -/
theorem upsertService_tasks (db : DB) (req : RegisterRequest) :
    (upsertService db req).tasks = db.tasks := by
  unfold upsertService
  split
  · rfl
  · rfl

/-- The services-table upsert leaves task_code_history untouched. -/
theorem upsertService_history (db : DB) (req : RegisterRequest) :
    (upsertService db req).taskCodeHistory = db.taskCodeHistory := by
  unfold upsertService
  split
  · rfl
  · rfl

/-- Looking up the upserted task id yields the upserted row. -/
theorem findTask_upsertTaskRow_self (db : DB) (row : TaskDef) (tid : String)
    (h : row.id = tid) : findTask (upsertTaskRow db row) tid = some row := by
  subst h
  unfold findTask
  rw [upsertTaskRow_tasks]
  exact find?_keyed_upsert_self TaskDef.id row.id row rfl db.tasks

/-- Looking up a different task id after the upsert is unchanged. -/
theorem findTask_upsertTaskRow_other (db : DB) (row : TaskDef) (tid : String)
    (h : tid ≠ row.id) : findTask (upsertTaskRow db row) tid = findTask db tid := by
  unfold findTask
  rw [upsertTaskRow_tasks]
  exact find?_keyed_upsert_other TaskDef.id row.id tid row rfl h db.tasks

/-- Looking up an upserted register row under its task id. -/
theorem findTask_upsertTaskRow_mk (db : DB) (sid h : String) (v : Nat) (spec : TaskSpec) :
    findTask (upsertTaskRow db (mkTaskRow sid h v spec)) spec.id
      = some (mkTaskRow sid h v spec) :=
  findTask_upsertTaskRow_self db _ _ rfl

/-- Looking up the upserted service id yields the refreshed service row. -/
theorem findService_upsertService_self (db : DB) (req : RegisterRequest) :
    ((upsertService db req).services.find? fun s => decide (s.id = req.serviceId))
      = some { id := req.serviceId, version := req.version,
               baseUrl := req.baseUrl, status := "active" } := by
  have hsh : (upsertService db req).services
      = if db.services.any fun s => decide (s.id = req.serviceId)
        then db.services.map fun s =>
          if s.id = req.serviceId then
            { id := req.serviceId, version := req.version,
              baseUrl := req.baseUrl, status := "active" }
          else s
        else db.services ++
          [{ id := req.serviceId, version := req.version,
             baseUrl := req.baseUrl, status := "active" }] := by
    unfold upsertService
    split
    · rfl
    · rfl
  rw [hsh]
  exact find?_keyed_upsert_self Service.id req.serviceId _ rfl db.services

/-- The services upsert does not change any stored task hash. -/
theorem taskHashOf_upsertService (db : DB) (req : RegisterRequest) (tid : String) :
    taskHashOf (upsertService db req) tid = taskHashOf db tid := by
  unfold taskHashOf findTask
  rw [upsertService_tasks]

/-- The services upsert does not change any stored task version. -/
theorem taskVersionOf_upsertService (db : DB) (req : RegisterRequest) (tid : String) :
    taskVersionOf (upsertService db req) tid = taskVersionOf db tid := by
  unfold taskVersionOf findTask
  rw [upsertService_tasks]

/-- Replacing the history column leaves task lookups unchanged. -/
theorem findTask_set_history (db : DB) (hrows : List HistoryRow) (tid : String) :
    findTask { db with taskCodeHistory := hrows } tid = findTask db tid := rfl

/-- After processing one incoming task, its stored hash is the computed one
(in every branch the upserted row carries hashOf spec). -/
theorem processRegisterTask_self_hash (hashOf : TaskSpec → String) (sid ver : String)
    (now : Nat) (db : DB) (ch : List CodeChange) (spec : TaskSpec) :
    taskHashOf (processRegisterTask hashOf sid ver now (db, ch) spec).1 spec.id
      = some (hashOf spec) := by
  unfold processRegisterTask
  cases hft : findTask db spec.id with
  | none =>
    simp only [hft]
    unfold taskHashOf
    rw [findTask_upsertTaskRow_mk]
    rfl
  | some old =>
    simp only [hft]
    by_cases heq : hashOf spec = old.codeHash
    · rw [if_pos heq]
      simp only []
      unfold taskHashOf
      rw [findTask_upsertTaskRow_mk]
      rfl
    · rw [if_neg heq]
      simp only []
      unfold taskHashOf
      split
      · rw [findTask_upsertTaskRow_mk]
        rfl
      · rw [findTask_set_history, findTask_upsertTaskRow_mk]
        rfl

/-- Processing one incoming task does not change the lookup of any other
task id. -/
theorem processRegisterTask_find_other (hashOf : TaskSpec → String) (sid ver : String)
    (now : Nat) (db : DB) (ch : List CodeChange) (spec : TaskSpec) (tid : String)
    (h : tid ≠ spec.id) :
    findTask (processRegisterTask hashOf sid ver now (db, ch) spec).1 tid = findTask db tid := by
  unfold processRegisterTask
  cases hft : findTask db spec.id with
  | none =>
    simp only [hft]
    exact findTask_upsertTaskRow_other db _ tid h
  | some old =>
    simp only [hft]
    by_cases heq : hashOf spec = old.codeHash
    · rw [if_pos heq]
      exact findTask_upsertTaskRow_other db _ tid h
    · rw [if_neg heq]
      split
      · exact findTask_upsertTaskRow_other db _ tid h
      · rw [findTask_set_history]
        exact findTask_upsertTaskRow_other db _ tid h

/-- When the stored hash already equals the computed one, processing the task
keeps the code changes, the history, and every stored version and hash. -/
theorem processRegisterTask_of_hash_eq (hashOf : TaskSpec → String) (sid ver : String)
    (now : Nat) (db : DB) (ch : List CodeChange) (spec : TaskSpec)
    (h : taskHashOf db spec.id = some (hashOf spec)) :
    (processRegisterTask hashOf sid ver now (db, ch) spec).2 = ch
      ∧ (processRegisterTask hashOf sid ver now (db, ch) spec).1.taskCodeHistory
          = db.taskCodeHistory
      ∧ (∀ tid, taskVersionOf (processRegisterTask hashOf sid ver now (db, ch) spec).1 tid
          = taskVersionOf db tid)
      ∧ (∀ tid, taskHashOf (processRegisterTask hashOf sid ver now (db, ch) spec).1 tid
          = taskHashOf db tid) := by
  obtain ⟨old, hft, hh⟩ : ∃ old, findTask db spec.id = some old ∧ old.codeHash = hashOf spec := by
    unfold taskHashOf at h
    cases hft : findTask db spec.id with
    | none => rw [hft] at h; exact absurd h (by simp)
    | some o =>
      rw [hft] at h
      exact ⟨o, rfl, by simpa using h⟩
  unfold processRegisterTask
  simp only [hft, if_pos hh.symm]
  refine ⟨?_, ?_, ?_, ?_⟩
  · trivial
  · exact upsertTaskRow_history _ _
  · intro tid
    by_cases ht : tid = spec.id
    · subst ht
      unfold taskVersionOf
      rw [findTask_upsertTaskRow_mk, hft]
      rfl
    · unfold taskVersionOf
      rw [findTask_upsertTaskRow_other _ _ _ ht]
  · intro tid
    by_cases ht : tid = spec.id
    · subst ht
      unfold taskHashOf
      rw [findTask_upsertTaskRow_mk, hft]
      show some (hashOf spec) = some old.codeHash
      rw [hh]
    · unfold taskHashOf
      rw [findTask_upsertTaskRow_other _ _ _ ht]

/-- Processing one incoming task never touches the services table. -/
theorem processRegisterTask_services (hashOf : TaskSpec → String) (sid ver : String)
    (now : Nat) (db : DB) (ch : List CodeChange) (spec : TaskSpec) :
    (processRegisterTask hashOf sid ver now (db, ch) spec).1.services = db.services := by
  unfold processRegisterTask
  cases hft : findTask db spec.id with
  | none =>
    simp only [hft]
    exact upsertTaskRow_services _ _
  | some old =>
    simp only [hft]
    by_cases heq : hashOf spec = old.codeHash
    · rw [if_pos heq]
      exact upsertTaskRow_services _ _
    · rw [if_neg heq]
      split
      · exact upsertTaskRow_services _ _
      · show (upsertTaskRow db _).services = db.services
        exact upsertTaskRow_services _ _

/-- The register fold never touches the services table. -/
theorem regFold_services (hashOf : TaskSpec → String) (sid ver : String) (now : Nat) :
    ∀ (specs : List TaskSpec) (acc : DB × List CodeChange),
      ((specs.foldl (processRegisterTask hashOf sid ver now) acc).1).services
        = acc.1.services := by
  intro specs
  induction specs with
  | nil => intro acc; rfl
  | cons s rest ih =>
    intro acc
    obtain ⟨adb, ach⟩ := acc
    rw [List.foldl_cons, ih]
    exact processRegisterTask_services hashOf sid ver now adb ach s

/-- The register fold leaves the stored hash of an unprocessed id
unchanged. -/
theorem regFold_hash_not_mem (hashOf : TaskSpec → String) (sid ver : String) (now : Nat) :
    ∀ (specs : List TaskSpec) (acc : DB × List CodeChange) (tid : String),
      tid ∉ specs.map TaskSpec.id →
        taskHashOf ((specs.foldl (processRegisterTask hashOf sid ver now) acc).1) tid
          = taskHashOf acc.1 tid := by
  intro specs
  induction specs with
  | nil => intro acc tid _; rfl
  | cons s rest ih =>
    intro acc tid h
    obtain ⟨adb, ach⟩ := acc
    simp only [List.map_cons, List.mem_cons, not_or] at h
    rw [List.foldl_cons, ih _ tid h.2]
    unfold taskHashOf
    rw [processRegisterTask_find_other hashOf sid ver now adb ach s tid h.1]

/-- After the register fold over tasks with pairwise distinct ids, every
processed task's stored hash is the computed one. -/
theorem regFold_hash_mem (hashOf : TaskSpec → String) (sid ver : String) (now : Nat) :
    ∀ (specs : List TaskSpec) (acc : DB × List CodeChange),
      (specs.map TaskSpec.id).Nodup →
        ∀ spec ∈ specs,
          taskHashOf ((specs.foldl (processRegisterTask hashOf sid ver now) acc).1) spec.id
            = some (hashOf spec) := by
  intro specs
  induction specs with
  | nil => intro acc _ spec hs; exact absurd hs (List.not_mem_nil spec)
  | cons s rest ih =>
    intro acc hnd spec hs
    obtain ⟨adb, ach⟩ := acc
    simp only [List.map_cons] at hnd
    obtain ⟨hnotin, hnd2⟩ := List.nodup_cons.mp hnd
    rw [List.foldl_cons]
    rcases List.mem_cons.mp hs with heq | hmr
    · subst heq
      rw [regFold_hash_not_mem hashOf sid ver now rest _ spec.id hnotin]
      exact processRegisterTask_self_hash hashOf sid ver now adb ach spec
    · exact ih _ hnd2 spec hmr

/-- When every incoming task's stored hash already equals its computed one,
the register fold reports no changes, appends no history, and preserves every
stored version and hash. -/
theorem regFold_of_hash_eq (hashOf : TaskSpec → String) (sid ver : String) (now : Nat) :
    ∀ (specs : List TaskSpec) (acc : DB × List CodeChange),
      (∀ spec ∈ specs, taskHashOf acc.1 spec.id = some (hashOf spec)) →
        ((specs.foldl (processRegisterTask hashOf sid ver now) acc).2 = acc.2)
          ∧ (((specs.foldl (processRegisterTask hashOf sid ver now) acc).1).taskCodeHistory
              = acc.1.taskCodeHistory)
          ∧ (∀ tid,
              taskVersionOf ((specs.foldl (processRegisterTask hashOf sid ver now) acc).1) tid
                = taskVersionOf acc.1 tid)
          ∧ (∀ tid,
              taskHashOf ((specs.foldl (processRegisterTask hashOf sid ver now) acc).1) tid
                = taskHashOf acc.1 tid) := by
  intro specs
  induction specs with
  | nil => intro acc _; exact ⟨rfl, rfl, fun _ => rfl, fun _ => rfl⟩
  | cons s rest ih =>
    intro acc hall
    obtain ⟨adb, ach⟩ := acc
    obtain ⟨h2, hhist, hver, hhash⟩ :=
      processRegisterTask_of_hash_eq hashOf sid ver now adb ach s
        (hall s (List.mem_cons_self s rest))
    have hrest := ih (processRegisterTask hashOf sid ver now (adb, ach) s)
      (fun spec hm => (hhash spec.id).trans (hall spec (List.mem_cons_of_mem s hm)))
    rw [List.foldl_cons]
    refine ⟨?_, ?_, ?_, ?_⟩
    · rw [hrest.1, h2]
    · rw [hrest.2.1, hhist]
    · intro tid
      rw [hrest.2.2.1 tid, hver tid]
    · intro tid
      rw [hrest.2.2.2 tid, hhash tid]

/-- The orphan-cancellation fold only touches task runs, never services. -/
theorem orphanFold_services (now : Nat) (v : String) (newIds : List String) :
    ∀ (ts : List TaskDef) (acc : DB × List String),
      ((ts.foldl (fun (acc : DB × List String) t =>
          if decide (t.id ∈ newIds) then acc
          else (cancelPendingRunsOfTask acc.1 now t.id v, acc.2 ++ [t.id])) acc).1).services
        = acc.1.services := by
  intro ts
  induction ts with
  | nil => intro acc; rfl
  | cons t rest ih =>
    intro acc
    rw [List.foldl_cons, ih]
    split
    · rfl
    · rfl

/-- registerService only changes the services table through the initial
upsert. -/
theorem registerService_services (hashOf : TaskSpec → String) (db : DB) (now : Nat)
    (req : RegisterRequest) :
    (registerService hashOf db now req).2.services = (upsertService db req).services := by
  unfold registerService
  simp only []
  rw [regFold_services]
  split
  · rw [orphanFold_services]
  · rfl

/-- After registerService, every registered task (with pairwise distinct ids
in the request) stores the computed hash of its serialization. -/
theorem registerService_hash (hashOf : TaskSpec → String) (db : DB) (now : Nat)
    (req : RegisterRequest) (hnd : (req.tasks.map TaskSpec.id).Nodup) :
    ∀ spec ∈ req.tasks,
      taskHashOf (registerService hashOf db now req).2 spec.id = some (hashOf spec) := by
  intro spec hs
  unfold registerService
  simp only []
  exact regFold_hash_mem hashOf req.serviceId req.version now req.tasks _ hnd spec hs

/-- When the stored service version already equals the incoming one,
registerService skips the orphan scan and reduces to the service upsert
followed by the task fold. -/
theorem registerService_eq_of_same_version (hashOf : TaskSpec → String) (db : DB)
    (now : Nat) (req : RegisterRequest) (srow : Service)
    (hsvc : (db.services.find? fun s => decide (s.id = req.serviceId)) = some srow)
    (hver : srow.version = req.version) :
    registerService hashOf db now req =
      (((req.tasks.foldl (processRegisterTask hashOf req.serviceId req.version now)
          (upsertService db req, ([] : List CodeChange))).2, ([] : List String)),
       (req.tasks.foldl (processRegisterTask hashOf req.serviceId req.version now)
          (upsertService db req, ([] : List CodeChange))).1) := by
  unfold registerService
  rw [hsvc]
  have hvc : decide (srow.version ≠ req.version) = false := by simp [hver]
  simp only [hvc, Bool.false_eq_true, if_false]

/-- C7: registering the same request twice (with pairwise distinct task ids)
is idempotent on code versioning — the second call reports no code changes,
appends no task_code_history row and leaves every stored codeVersion where it
was (the hash of the same canonical serialization is the same, so no task is
seen as changed); and in any single register step the stored version is kept
when the computed hash equals the stored one and incremented by exactly one
when it differs. -/
theorem register_idempotent_code_versioning (hashOf : TaskSpec → String) (db : DB)
    (now1 now2 : Nat) (req : RegisterRequest)
    (hnd : (req.tasks.map TaskSpec.id).Nodup) :
    ((registerService hashOf (registerService hashOf db now1 req).2 now2 req).1).1 = []
      ∧ (registerService hashOf (registerService hashOf db now1 req).2 now2 req).2.taskCodeHistory
          = (registerService hashOf db now1 req).2.taskCodeHistory
      ∧ (∀ tid,
          taskVersionOf (registerService hashOf (registerService hashOf db now1 req).2 now2 req).2
              tid
            = taskVersionOf (registerService hashOf db now1 req).2 tid)
      ∧ (∀ (db₀ : DB) (ch : List CodeChange) (spec : TaskSpec) (old : TaskDef),
          findTask db₀ spec.id = some old →
            taskVersionOf
                (processRegisterTask hashOf req.serviceId req.version now2 (db₀, ch) spec).1
                spec.id
              = some (if hashOf spec = old.codeHash then old.codeVersion
                      else old.codeVersion + 1)) := by
  have hsvc : ((registerService hashOf db now1 req).2.services.find? fun s =>
      decide (s.id = req.serviceId))
      = some { id := req.serviceId, version := req.version,
               baseUrl := req.baseUrl, status := "active" } := by
    rw [registerService_services]
    exact findService_upsertService_self db req
  have hhash := registerService_hash hashOf db now1 req hnd
  have heqr := registerService_eq_of_same_version hashOf (registerService hashOf db now1 req).2
    now2 req
    { id := req.serviceId, version := req.version, baseUrl := req.baseUrl, status := "active" }
    hsvc rfl
  have hkey : ∀ spec ∈ req.tasks,
      taskHashOf (upsertService (registerService hashOf db now1 req).2 req) spec.id
        = some (hashOf spec) := by
    intro spec hs
    rw [taskHashOf_upsertService]
    exact hhash spec hs
  have hfold := regFold_of_hash_eq hashOf req.serviceId req.version now2 req.tasks
    (upsertService (registerService hashOf db now1 req).2 req, []) hkey
  refine ⟨?_, ?_, ?_, ?_⟩
  · rw [heqr]
    exact hfold.1
  · rw [heqr]
    rw [hfold.2.1]
    exact upsertService_history _ _
  · intro tid
    rw [heqr]
    rw [hfold.2.2.1 tid]
    exact taskVersionOf_upsertService _ _ tid
  · intro db₀ ch spec old hft
    unfold processRegisterTask
    simp only [hft]
    by_cases heq2 : hashOf spec = old.codeHash
    · rw [if_pos heq2, if_pos heq2]
      simp only []
      unfold taskVersionOf
      rw [findTask_upsertTaskRow_mk]
      rfl
    · rw [if_neg heq2, if_neg heq2]
      simp only []
      unfold taskVersionOf
      split
      · rw [findTask_upsertTaskRow_mk]
        rfl
      · rw [findTask_set_history, findTask_upsertTaskRow_mk]
        rfl

/-- C7 witness: registering the two-task request twice over the empty store
reports no changes, appends no history and keeps both code versions at 1. -/
theorem register_idempotent_code_versioning_witness :
    ((registerService hashDemo (registerService hashDemo emptyDB 1 regReq).2 2 regReq).1).1 = []
      ∧ (registerService hashDemo (registerService hashDemo emptyDB 1 regReq).2 2
          regReq).2.taskCodeHistory
          = (registerService hashDemo emptyDB 1 regReq).2.taskCodeHistory
      ∧ taskVersionOf
          (registerService hashDemo (registerService hashDemo emptyDB 1 regReq).2 2 regReq).2 "t1"
          = taskVersionOf (registerService hashDemo emptyDB 1 regReq).2 "t1" := by
  have h := register_idempotent_code_versioning hashDemo emptyDB 1 2 regReq (by decide)
  exact ⟨h.1, h.2.1, h.2.2.1 "t1"⟩

end PipeWeave
